import Mathlib

/-!
Verification development for the trend-analysis engine of the
ai-content-optimizer repository (`src/trend_analyzer.py`, class
`TrendAnalyzer`).  The Python code is shallowly embedded below:

* records (Python dicts) become the structure `Item`, with absent fields
  represented by their Python `dict.get` defaults (`""`, `0`, `"unknown"`);
* the input Dataset (a Python dict keyed by platform, insertion-ordered)
  becomes an ordered association list `List (String × List Item)`;
* timestamps become the structure `DT`; `datetime.fromisoformat` (the
  pre-3.11 grammar used together with the explicit `Z` → `+00:00`
  replacement in the source) and
  `datetime.strptime(_, "%Y-%m-%d %H:%M:%S")` become the total parsers
  `isoParse` and `strpParse` returning `Option DT`;
* `random.randint(9, 17)` becomes an explicit random stream
  `rng : Nat → Nat`, each draw mapped into [9,17] by `randHour`;
* comparison of offset-aware and offset-naive datetimes raises `TypeError`
  in Python, so aggregate operations over mixed lists are embedded as
  `Except`-valued functions; the bare `except` blocks of the source become
  the corresponding handlers;
* Python float statistics (`sum/len`, `1.2`, `0.8`) are modeled over `ℚ`;
  `int(x)` truncation of a nonnegative quotient is `Nat` division;
* `pandas.Series.value_counts` is modeled as: unique values in order of
  first occurrence paired with their counts, stably sorted by ascending
  count and then reversed (matching the ordering documented by the pandas
  `value_counts` docstring example: descending count, ties listed in
  reverse order of first occurrence);
* `collections.Counter.most_common(n)` is modeled as a stable descending
  sort by count (ties in first-encountered order, as documented), then
  `take n`.
-/

namespace TrendAnalyzer

/-! ### Generic small helpers -/

/-- Sum of a list of naturals (Python `sum`). -/
def sumNat (l : List Nat) : Nat := l.foldl (· + ·) 0

/-- Maximum of a nonempty list (Python `max`); 0 on `[]` (unreachable in use). -/
def maxNat : List Nat → Nat
  | [] => 0
  | h :: t => t.foldl Nat.max h

/-- Minimum of a nonempty list (Python `min`); 0 on `[]` (unreachable in use). -/
def minNat : List Nat → Nat
  | [] => 0
  | h :: t => t.foldl Nat.min h

/-- Association-list lookup with string keys (Python `dict.get` /
`dict[...]` on insertion-ordered dicts with unique keys). -/
def lookupStr {β : Type} (k : String) : List (String × β) → Option β
  | [] => none
  | (a, v) :: t => if a = k then some v else lookupStr k t

/-- Whether `pat` occurs in `s` starting at its head. -/
def matchesAt : List Char → List Char → Bool
  | _, [] => true
  | [], _ :: _ => false
  | a :: s, b :: p => a = b && matchesAt s p

/-- Whether `pat` occurs anywhere in `s` (Python `pat in s` on strings). -/
def hasSub : List Char → List Char → Bool
  | [], pat => pat.isEmpty
  | a :: s, pat => matchesAt (a :: s) pat || hasSub s pat

/-- Python substring test `pat in hay`. -/
def containsStr (hay pat : String) : Bool := hasSub hay.data pat.data

/-- Python `s.lower()`, modeled over the ASCII case map. -/
def strToLower (s : String) : String := String.mk (s.data.map Char.toLower)

/-- First-occurrence deduplication (iteration order of a Python
`dict`/`Counter` built by insertion). -/
def dedupFirst {α : Type} [BEq α] (l : List α) : List α :=
  l.foldl (fun acc x => if acc.contains x then acc else acc ++ [x]) []

/-- Unique values of `l` in first-occurrence order, paired with their
multiplicities (the histogram underlying `Counter` / `value_counts`). -/
def firstOcc {α : Type} [BEq α] (l : List α) : List (α × Nat) :=
  (dedupFirst l).map (fun x => (x, l.count x))

/-- Ordering on histogram entries by ascending count (stable w.r.t.
`List.insertionSort`). -/
def cntLE {α : Type} (a b : α × Nat) : Prop := a.2 ≤ b.2

instance {α : Type} : DecidableRel (@cntLE α) := fun a b => by
  unfold cntLE; infer_instance

instance {α : Type} : IsTotal (α × Nat) cntLE := ⟨fun a b => Nat.le_total a.2 b.2⟩

instance {α : Type} : IsTrans (α × Nat) cntLE := ⟨fun _ _ _ h h' => Nat.le_trans h h'⟩

/-- Ordering on histogram entries by descending count (stable w.r.t.
`List.insertionSort`; ties keep first-encountered order, as documented for
`Counter.most_common`). -/
def cntGE {α : Type} (a b : α × Nat) : Prop := b.2 ≤ a.2

instance {α : Type} : DecidableRel (@cntGE α) := fun a b => by
  unfold cntGE; infer_instance

instance {α : Type} : IsTotal (α × Nat) cntGE := ⟨fun a b => Nat.le_total b.2 a.2⟩

instance {α : Type} : IsTrans (α × Nat) cntGE := ⟨fun _ _ _ h h' => Nat.le_trans h' h⟩

/-- Model of `pandas.Series(l).value_counts()`: histogram sorted by
descending count, ties in reverse order of first occurrence (stable
ascending sort by count, then reverse). -/
def valueCounts (l : List Nat) : List (Nat × Nat) :=
  (List.insertionSort cntLE (firstOcc l)).reverse

/-- Model of `collections.Counter(l).most_common()`: histogram sorted by
descending count, ties in first-encountered order. -/
def mostCommon {α : Type} [BEq α] (l : List α) : List (α × Nat) :=
  List.insertionSort cntGE (firstOcc l)

/-- Ascending sort of naturals (Python `list.sort()` on ints). -/
def sortNat (l : List Nat) : List Nat := List.insertionSort (· ≤ ·) l

/-- First `n` characters of a string (Python `s[:n]`). -/
def strTake (s : String) (n : Nat) : String := String.mk (s.data.take n)

/-- Insert a comma after every third character (used on a reversed digit
string; Python `format(n, ",")`). -/
def ins3 : List Char → List Char
  | a :: b :: c :: d :: t => a :: b :: c :: ',' :: ins3 (d :: t)
  | l => l

/-- Python `f"{n:,}"` thousands-separator formatting of a natural. -/
def commaFmt (n : Nat) : String :=
  String.mk (ins3 (toString n).data.reverse).reverse

/-! ### Calendar arithmetic and the datetime value -/

/-- Gregorian leap-year rule (as enforced by Python `datetime`). -/
def isLeapYear (y : Nat) : Bool := (y % 4 == 0 && y % 100 != 0) || y % 400 == 0

/-- Number of days in month `m` of year `y`. -/
def daysInMonth (y m : Nat) : Nat :=
  if m = 2 then (if isLeapYear y then 29 else 28)
  else if m = 4 ∨ m = 6 ∨ m = 9 ∨ m = 11 then 30
  else 31

/-- Days in year `y` before the first day of month `m`. -/
def daysBeforeMonth (y m : Nat) : Nat :=
  (List.range (m - 1)).foldl (fun acc i => acc + daysInMonth y (i + 1)) 0

/-- Days before January 1 of year `y` (proleptic Gregorian, year 1 based). -/
def daysBeforeYear (y : Nat) : Nat :=
  365 * (y - 1) + (y - 1) / 4 + (y - 1) / 400 - (y - 1) / 100

/-- Rata-die day number of a calendar date. -/
def rataDie (y m d : Nat) : Nat := daysBeforeYear y + daysBeforeMonth y m + d

/-- Validity of a calendar date as accepted by the `datetime` constructor. -/
def validDate (y m d : Nat) : Bool :=
  1 ≤ y && y ≤ 9999 && 1 ≤ m && m ≤ 12 && 1 ≤ d && d ≤ daysInMonth y m

/-- A parsed Python `datetime`: wall-clock fields plus the timezone state
(`tzAware` with a UTC offset in seconds, matching `timezone(timedelta)`). -/
structure DT where
  year : Nat
  month : Nat
  day : Nat
  hour : Nat
  minute : Nat
  second : Nat
  tzAware : Bool
  offsetSec : Int
deriving DecidableEq, Repr

/-- Comparison key of a datetime: seconds on the proleptic Gregorian line,
shifted by the UTC offset (Python compares aware datetimes by instant). -/
def DT.key (dt : DT) : Int :=
  ((((rataDie dt.year dt.month dt.day) * 24 + dt.hour) * 60 + dt.minute) * 60
      + dt.second : Nat) - dt.offsetSec

/-- Python `str(dt.date())` — zero-padded ISO date rendering. -/
def pad2 (n : Nat) : String := if n < 10 then "0" ++ toString n else toString n

/-- Zero-padding to four digits for the year field. -/
def pad4 (n : Nat) : String :=
  if n < 10 then "000" ++ toString n
  else if n < 100 then "00" ++ toString n
  else if n < 1000 then "0" ++ toString n
  else toString n

/-- ISO rendering of the date part of a datetime (Python `dt.date()`). -/
def DT.dateStr (dt : DT) : String :=
  pad4 dt.year ++ "-" ++ pad2 dt.month ++ "-" ++ pad2 dt.day

/-- Whether a list of datetimes mixes offset-aware and offset-naive values;
Python raises `TypeError` when such values are compared (by `min`, `max`,
or `list.sort`). -/
def mixedAware (l : List DT) : Bool :=
  l.any (·.tzAware) && l.any (fun d => !d.tzAware)

/-! ### Timestamp parsers -/

/-- Numeric value of a digit character. -/
def digitVal (c : Char) : Nat := c.toNat - 48

/-- Parse exactly two digits. -/
def parse2 : List Char → Option (Nat × List Char)
  | a :: b :: t =>
    if a.isDigit && b.isDigit then some (digitVal a * 10 + digitVal b, t) else none
  | _ => none

/-- Parse exactly four digits. -/
def parse4 : List Char → Option (Nat × List Char)
  | a :: b :: c :: d :: t =>
    if a.isDigit && b.isDigit && c.isDigit && d.isDigit then
      some (((digitVal a * 10 + digitVal b) * 10 + digitVal c) * 10 + digitVal d, t)
    else none
  | _ => none

/-- Parse one or two digits the way a `strptime` field regex does: a
two-digit form is accepted when its value lies in `[lo2, hi2]`, otherwise a
single digit with value in `[lo1, hi1]`. -/
def parseNum2or1 (lo2 hi2 lo1 hi1 : Nat) : List Char → Option (Nat × List Char)
  | a :: b :: t =>
    if a.isDigit && b.isDigit then
      let v := digitVal a * 10 + digitVal b
      if lo2 ≤ v && v ≤ hi2 then some (v, t) else none
    else if a.isDigit then
      let v := digitVal a
      if lo1 ≤ v && v ≤ hi1 then some (v, b :: t) else none
    else none
  | [a] =>
    if a.isDigit then
      let v := digitVal a
      if lo1 ≤ v && v ≤ hi1 then some (v, []) else none
    else none
  | [] => none

/-- Expect one specific character. -/
def expectCh (c : Char) : List Char → Option (List Char)
  | a :: t => if a = c then some t else none
  | [] => none

/-- Parse a `fromisoformat` UTC offset tail `HH:MM[:SS]` (after the sign),
returning the offset in seconds; bounds as enforced by `timezone`. -/
def parseOffsetTail (sign : Int) (l : List Char) : Option Int :=
  match parse2 l with
  | none => none
  | some (oh, t1) =>
    match expectCh ':' t1 with
    | none => none
    | some t2 =>
      match parse2 t2 with
      | none => none
      | some (om, t3) =>
        if oh ≤ 23 && om ≤ 59 then
          match t3 with
          | [] => some (sign * ((oh : Int) * 3600 + (om : Int) * 60))
          | ':' :: t4 =>
            match parse2 t4 with
            | none => none
            | some (os, t5) =>
              if os ≤ 59 && t5.isEmpty then
                some (sign * ((oh : Int) * 3600 + (om : Int) * 60 + (os : Int)))
              else none
          | _ => none
        else none

/-- Parse an optional fractional-seconds field `.fff` or `.ffffff`
(value discarded: the analyzer only reads whole-second fields). -/
def parseFracTail : List Char → Option (List Char)
  | '.' :: a :: b :: c :: d :: e :: f :: t =>
    if a.isDigit && b.isDigit && c.isDigit && d.isDigit && e.isDigit && f.isDigit then
      some t
    else if a.isDigit && b.isDigit && c.isDigit then some (d :: e :: f :: t)
    else none
  | '.' :: a :: b :: c :: t =>
    if a.isDigit && b.isDigit && c.isDigit then some t else none
  | '.' :: _ => none
  | t => some t

/-- Finish an ISO parse after the time fields: end of input gives a naive
datetime, a sign introduces a UTC offset. -/
def finishTZ (y m d hh mm ss : Nat) : List Char → Option DT
  | [] => some ⟨y, m, d, hh, mm, ss, false, 0⟩
  | '+' :: t => (parseOffsetTail 1 t).map (fun off => ⟨y, m, d, hh, mm, ss, true, off⟩)
  | '-' :: t => (parseOffsetTail (-1) t).map (fun off => ⟨y, m, d, hh, mm, ss, true, off⟩)
  | _ => none

/-- Parse the optional `:SS[.frac]` part of an ISO time. -/
def parseSecTail (y m d hh mm : Nat) : List Char → Option DT
  | ':' :: t =>
    match parse2 t with
    | none => none
    | some (ss, t1) =>
      if ss ≤ 59 then
        match parseFracTail t1 with
        | none => none
        | some t2 => finishTZ y m d hh mm ss t2
      else none
  | rest => finishTZ y m d hh 0 0 rest

/-- Parse the optional `:MM[:SS]` part of an ISO time. -/
def parseMinTail (y m d hh : Nat) : List Char → Option DT
  | ':' :: t =>
    match parse2 t with
    | none => none
    | some (mm, t1) => if mm ≤ 59 then parseSecTail y m d hh mm t1 else none
  | rest => finishTZ y m d hh 0 0 rest

/-- Model of pre-3.11 `datetime.fromisoformat`:
`YYYY-MM-DD[<sep>HH[:MM[:SS[.frac]]][±HH:MM[:SS]]]` with zero-padded
fields, any single separator character, and calendar validation. -/
def isoParse (s : String) : Option DT :=
  match parse4 s.data with
  | none => none
  | some (y, r1) =>
    match expectCh '-' r1 with
    | none => none
    | some r2 =>
      match parse2 r2 with
      | none => none
      | some (m, r3) =>
        match expectCh '-' r3 with
        | none => none
        | some r4 =>
          match parse2 r4 with
          | none => none
          | some (d, r5) =>
            if validDate y m d then
              match r5 with
              | [] => some ⟨y, m, d, 0, 0, 0, false, 0⟩
              | _ :: t =>
                match parse2 t with
                | none => none
                | some (hh, t1) => if hh ≤ 23 then parseMinTail y m d hh t1 else none
            else none

/-- Model of `datetime.strptime(s, "%Y-%m-%d %H:%M:%S")`: four-digit year,
one-or-two-digit numeric fields per the `strptime` field regexes, entire
string consumed, calendar validation by the `datetime` constructor. -/
def strpParse (s : String) : Option DT :=
  (parse4 s.data).bind fun ya =>
  (expectCh '-' ya.2).bind fun r2 =>
  (parseNum2or1 1 12 1 9 r2).bind fun ma =>
  (expectCh '-' ma.2).bind fun r4 =>
  (parseNum2or1 1 31 1 9 r4).bind fun da =>
  (expectCh ' ' da.2).bind fun r6 =>
  (parseNum2or1 0 23 0 9 r6).bind fun ha =>
  (expectCh ':' ha.2).bind fun r8 =>
  (parseNum2or1 0 59 0 9 r8).bind fun mia =>
  (expectCh ':' mia.2).bind fun r10 =>
  (parseNum2or1 0 59 0 9 r10).bind fun sa =>
  if sa.2.isEmpty && validDate ya.1 ma.1 da.1 then
    some ⟨ya.1, ma.1, da.1, ha.1, mia.1, sa.1, false, 0⟩
  else none

/-- Python `s.endswith("Z")`. -/
def endsWithZ (s : String) : Bool := s.data.getLast? = some 'Z'

/-- Python `s.replace("Z", "+00:00")` (every occurrence). -/
def replaceZ (s : String) : String :=
  String.mk (s.data.foldr
    (fun c acc => if c = 'Z' then '+' :: '0' :: '0' :: ':' :: '0' :: '0' :: acc
                  else c :: acc) [])

/-- Python `"T" in s`. -/
def hasT (s : String) : Bool := s.data.contains 'T'

/-- The timestamp-parsing discipline shared by `_analyze_posting_times`,
`_get_date_range` and `_get_engagement_trend`: an empty field is never
parsed; a string containing `T` goes to `fromisoformat` (with the trailing
`Z` first replaced by `+00:00`); any other string goes to `strptime` with
the fixed pattern. -/
def parsePub (s : String) : Option DT :=
  if s = "" then none
  else if hasT s then isoParse (if endsWithZ s then replaceZ s else s)
  else strpParse s

/-! ### The data model of the analyzer input -/

/-- A collected record.  Python records are dicts read exclusively through
`dict.get` with defaults, so absent fields are identified with their
defaults: `title`, `published_at`, `platform` default to `""`; the
engagement metrics default to `0`; `keyword` keeps absence explicit
because two different defaults (`"unknown"` and `""`) are used. -/
structure Item where
  title : String := ""
  published_at : String := ""
  keyword : Option String := none
  platform : String := ""
  views : Nat := 0
  likes : Nat := 0
  upvotes : Nat := 0
  comments : Nat := 0
deriving DecidableEq, Repr

/-- The analyzer input: platform name → ordered record sequence, in dict
insertion order with unique keys. -/
abbrev Dataset := List (String × List Item)

/-! ### Posting-time analysis (`_analyze_posting_times`) -/

/-- One `random.randint(9, 17)` draw, fed from the ambient stream. -/
def randHour (r : Nat) : Nat := 9 + r % 9

/-- Per-record outcome of the timestamp-extraction loop: records with an
empty `published_at` contribute nothing, parsed records contribute the
wall-clock hour, unparsable nonempty records trigger the random fallback. -/
inductive PubClass where
  | skipRec
  | hourVal (h : Nat)
  | randFill
deriving DecidableEq, Repr

/-- Classify one record's `published_at` as the extraction loop does. -/
def classifyPub (s : String) : PubClass :=
  if s = "" then .skipRec
  else match parsePub s with
    | some dt => .hourVal dt.hour
    | none => .randFill

/-- The hour-extraction loop over one platform's records; returns the
extracted hours in record order together with the number of random draws
consumed from the stream. -/
def extractHours (rng : Nat → Nat) : List Item → List Nat × Nat
  | [] => ([], 0)
  | it :: rest =>
    match classifyPub it.published_at with
    | .skipRec => extractHours rng rest
    | .hourVal h =>
      let r := extractHours rng rest
      (h :: r.1, r.2)
    | .randFill =>
      let r := extractHours (fun i => rng (i + 1)) rest
      (randHour (rng 0) :: r.1, r.2 + 1)

/-- One platform's entry in `best_posting_times`. -/
structure PTimes where
  peak_hours : List Nat
  best_time_range : String
  sample_size : Nat
  peak_hour : Nat
deriving DecidableEq, Repr

/-- The default posting-time entry emitted when no hour was observed. -/
def defaultPTimes : PTimes := ⟨[10, 14, 19], "10:00 - 19:00", 0, 14⟩

/-- Build the posting-time statistics from a nonempty hour list: top three
of `value_counts`, sorted ascending; the time-range string; the sample
size; `idxmax` as the peak hour. -/
def buildTimesEntry (hours : List Nat) : PTimes :=
  let vc := valueCounts hours
  if vc = [] then defaultPTimes
  else
    let pk := sortNat ((vc.take 3).map Prod.fst)
    let range :=
      match pk with
      | [] => "10:00 - 19:00"
      | [h] => toString h ++ ":00 - " ++ toString ((h + 3) % 24) ++ ":00"
      | h :: t => toString h ++ ":00 - " ++ toString (t.getLastD h) ++ ":00"
    ⟨pk, range, hours.length, (vc.headD (14, 0)).1⟩

/-- `_analyze_posting_times`: per nonempty platform, extract hours (the
single random stream is threaded across platforms) and emit either the
statistics entry or the fixed default. -/
def analyzePostingTimes (rng : Nat → Nat) : Dataset → List (String × PTimes)
  | [] => []
  | (p, items) :: rest =>
    if items = [] then analyzePostingTimes rng rest
    else
      let r := extractHours rng items
      let entry := if r.1 = [] then defaultPTimes else buildTimesEntry r.1
      (p, entry) :: analyzePostingTimes (fun i => rng (i + r.2)) rest

/-! ### Viral-pattern analysis (`_analyze_viral_patterns`) -/

/-- Value type of the viral-patterns block (its four entries hold either
string sequences or the never-populated length-pattern mapping). -/
inductive VVal where
  | strs (l : List String)
  | lenPat (m : List (String × ℚ))
deriving DecidableEq, Repr

/-- Records of the `youtube` sequence with views strictly above the mean
views of that sequence. -/
def viralOf (yt : List Item) : List Item :=
  let views := yt.map (·.views)
  let avg : ℚ := (sumNat views : ℚ) / (views.length : ℚ)
  yt.filter (fun it => (it.views : ℚ) > avg)

/-- Truncated title of a record, skipped when the title is empty. -/
def titleTrunc100 (it : Item) : Option String :=
  if it.title ≠ "" then some (strTake it.title 100) else none

/-- A word character for the `\w` class (modeled over its ASCII subset:
letters, digits, underscore). -/
def isWordChar (c : Char) : Bool := c.isAlphanum || c = '_'

/-- Maximal word-character runs of a character list (continuation of the
current partial run is threaded as the second argument). -/
def runsAux : List Char → List Char → List (List Char)
  | [], cur => if cur = [] then [] else [cur.reverse]
  | c :: t, cur =>
    if isWordChar c then runsAux t (c :: cur)
    else if cur = [] then runsAux t []
    else cur.reverse :: runsAux t []

/-- Model of `re.findall(r"\b\w{4,}\b", s)`: maximal word-character runs of
length at least 4. -/
def tokenizeWords (s : String) : List String :=
  ((runsAux s.data []).filter (fun r => 4 ≤ r.length)).map String.mk

/-- `_analyze_viral_patterns`: scoped to the records stored under the exact
key `"youtube"`; collects up to five truncated titles of viral records and
the ten most common long words of all viral titles; the other two entries
are initialized and never written. -/
def analyzeViralPatterns (data : Dataset) : List (String × VVal) :=
  let yt := (lookupStr "youtube" data).getD []
  let vir := viralOf yt
  let titles := if yt = [] then [] else (vir.take 5).filterMap titleTrunc100
  let kws :=
    if yt = [] then []
    else
      let all_titles :=
        String.intercalate " "
          (vir.filterMap (fun v => if v.title ≠ "" then some v.title else none))
      if all_titles = "" then []
      else
        let words := tokenizeWords (strToLower all_titles)
        if words = [] then []
        else ((mostCommon words).take 10).map Prod.fst
  [("high_engagement_titles", VVal.strs titles),
   ("common_keywords_in_viral", VVal.strs kws),
   ("content_length_pattern", VVal.lenPat []),
   ("emotional_triggers", VVal.strs [])]

/-! ### Engagement analysis (`_analyze_engagement`) -/

/-- One platform's entry in `engagement_insights`; the three constructors
are the three per-platform shapes built by the source. -/
inductive EngStat where
  | yt (avg_views avg_likes : Nat) (view_to_like_ratio : ℚ)
       (max_views min_views total_items : Nat)
  | rd (avg_upvotes avg_comments : Nat) (engagement_rate : ℚ) (total_items : Nat)
  | news (total_items : Nat) (avg_title_length : ℚ)
deriving DecidableEq, Repr

/-- Mean title length of a nonempty record list (`google_news` branch). -/
def avgTitleLen (items : List Item) : ℚ :=
  (sumNat (items.map (fun it => it.title.length)) : ℚ) / (items.length : ℚ)

/-- `_analyze_engagement`: platform dispatch by exact string equality on
`"youtube"`, `"reddit"`, `"google_news"`; every other platform produces no
entry at all. -/
def analyzeEngagement : Dataset → List (String × EngStat)
  | [] => []
  | (p, items) :: rest =>
    if items = [] then analyzeEngagement rest
    else if p = "youtube" then
      let views := items.map (·.views)
      let likes := items.map (·.likes)
      (p, EngStat.yt (sumNat views / views.length)
            (if likes = [] then 0 else sumNat likes / likes.length)
            (if sumNat views > 0 then (sumNat likes : ℚ) / (sumNat views : ℚ) else 0)
            (maxNat views) (minNat views) items.length) :: analyzeEngagement rest
    else if p = "reddit" then
      let upvotes := items.map (·.upvotes)
      let comments := items.map (·.comments)
      (p, EngStat.rd (sumNat upvotes / upvotes.length)
            (if comments = [] then 0 else sumNat comments / comments.length)
            (if sumNat upvotes > 0 then
               (sumNat comments : ℚ) / (sumNat upvotes : ℚ) else 0)
            items.length) :: analyzeEngagement rest
    else if p = "google_news" then
      (p, EngStat.news items.length (avgTitleLen items)) :: analyzeEngagement rest
    else analyzeEngagement rest

/-! ### Keyword analysis (`_analyze_keywords`) -/

/-- One keyword's statistics within a platform. -/
structure KwStat where
  count : Nat
  total_engagement : Nat
  avg_engagement : Nat
deriving DecidableEq, Repr

/-- The platform-appropriate engagement figure of one record. -/
def engOfPlat (p : String) (it : Item) : Nat :=
  if p = "youtube" then it.views else if p = "reddit" then it.upvotes else 0

/-- Add one record to the per-keyword accumulator (count, total), keeping
dict insertion order. -/
def bumpKw (acc : List (String × (Nat × Nat))) (k : String) (e : Nat) :
    List (String × (Nat × Nat)) :=
  match acc with
  | [] => [(k, (1, e))]
  | (a, c) :: t =>
    if a = k then (a, (c.1 + 1, c.2 + e)) :: t else (a, c) :: bumpKw t k e

/-- Keyword statistics of one platform: group by `keyword` (default
`"unknown"`), then attach the truncated average. -/
def kwStatsFor (p : String) (items : List Item) : List (String × KwStat) :=
  let raw := items.foldl (fun acc it => bumpKw acc (it.keyword.getD "unknown") (engOfPlat p it)) []
  raw.map (fun kv => (kv.1, ⟨kv.2.1, kv.2.2, if kv.2.1 > 0 then kv.2.2 / kv.2.1 else 0⟩))

/-- `_analyze_keywords`: per nonempty platform, the keyword statistics. -/
def analyzeKeywords : Dataset → List (String × List (String × KwStat))
  | [] => []
  | (p, items) :: rest =>
    if items = [] then analyzeKeywords rest
    else (p, kwStatsFor p items) :: analyzeKeywords rest

/-! ### Platform insights (`_analyze_platforms` and helpers) -/

/-- One platform's entry in `platform_insights`. -/
structure PlatIns where
  total_items : Nat
  date_range : String
  top_keywords : List String
  engagement_trend : String
deriving DecidableEq, Repr

/-- `_get_date_range`: the parseable dates of the records; `min`/`max` over
a list mixing aware and naive datetimes raises `TypeError` in Python, and
no handler guards this call, so that case is an error value. -/
def getDateRange (items : List Item) : Except String String :=
  match items.filterMap (fun it => parsePub it.published_at) with
  | [] => Except.ok "Unknown"
  | d :: ds =>
    if mixedAware (d :: ds) then
      Except.error "cannot compare offset-naive and offset-aware datetimes"
    else
      let lo := ds.foldl (fun best x => if x.key < best.key then x else best) d
      let hi := ds.foldl (fun best x => if x.key > best.key then x else best) d
      Except.ok (lo.dateStr ++ " to " ++ hi.dateStr)

/-- `_get_top_keywords`: the five most common nonempty keyword values. -/
def getTopKeywords (items : List Item) : List String :=
  let keywords := items.filterMap (fun it =>
    match it.keyword with
    | some k => if k ≠ "" then some k else none
    | none => none)
  if keywords = [] then []
  else ((mostCommon keywords).take 5).map Prod.fst

/-- Stable ascending sort of dated records by datetime (Python
`list.sort(key=lambda x: x[0])` on comparable datetimes). -/
def sortDated (l : List (DT × Nat)) : List (DT × Nat) :=
  List.insertionSort (fun a b => a.1.key ≤ b.1.key) l

/-- Core of `_get_engagement_trend`, parameterized by the per-record
engagement figure.  Mixing aware and naive dates makes the sort raise; the
surrounding bare `except` turns that into the final `"Stable"`.  The float
thresholds 1.2 and 0.8 are modeled as the rationals 6/5 and 4/5. -/
def trendWith (eng : Item → Nat) (items : List Item) : String :=
  if items.length < 5 then "Insufficient data"
  else
    let dated := items.filterMap (fun it =>
      (parsePub it.published_at).map (fun dt => (dt, eng it)))
    if 5 ≤ dated.length then
      if mixedAware (dated.map Prod.fst) then "Stable"
      else
        let sorted := sortDated dated
        let mid := sorted.length / 2
        let firstHalf := (sorted.take mid).map Prod.snd
        let secondHalf := (sorted.drop mid).map Prod.snd
        if firstHalf.isEmpty || secondHalf.isEmpty then "Stable"
        else
          let avgF : ℚ := (sumNat firstHalf : ℚ) / (firstHalf.length : ℚ)
          let avgS : ℚ := (sumNat secondHalf : ℚ) / (secondHalf.length : ℚ)
          if avgS > avgF * (6 / 5 : ℚ) then "Increasing"
          else if avgS < avgF * (4 / 5 : ℚ) then "Decreasing"
          else "Stable"
    else "Stable"

/-- The engagement figure actually used by `_get_engagement_trend`: a
substring test of `"youtube"` / `"reddit"` against the `platform` field of
the FIRST record of the sequence. -/
def trendMetric (items : List Item) : Item → Nat := fun it =>
  match items with
  | [] => 0
  | f :: _ =>
    if containsStr f.platform "youtube" then it.views
    else if containsStr f.platform "reddit" then it.upvotes
    else 0

/-- `_get_engagement_trend` as called by `_analyze_platforms`. -/
def getEngagementTrend (items : List Item) : String :=
  trendWith (trendMetric items) items

/-- `_analyze_platforms`: per nonempty platform, the summary entry; the
date-range fault propagates (it is caught only at the `analyze` level). -/
def analyzePlatforms : Dataset → Except String (List (String × PlatIns))
  | [] => Except.ok []
  | (p, items) :: rest =>
    if items = [] then analyzePlatforms rest
    else
      match getDateRange items with
      | Except.error e => Except.error e
      | Except.ok dr =>
        match analyzePlatforms rest with
        | Except.error e => Except.error e
        | Except.ok r =>
          Except.ok ((p, ⟨items.length, dr, getTopKeywords items,
                          getEngagementTrend items⟩) :: r)

/-! ### Top-level analysis (`analyze`) -/

/-- The five insight blocks. -/
structure Insights where
  best_posting_times : List (String × PTimes)
  viral_content_patterns : List (String × VVal)
  engagement_insights : List (String × EngStat)
  keyword_performance : List (String × List (String × KwStat))
  platform_insights : List (String × PlatIns)
deriving DecidableEq, Repr

/-- The all-empty Insights value returned by the `except` handler of
`analyze` (each of the five keys mapped to an empty mapping). -/
def emptyInsights : Insights := ⟨[], [], [], [], []⟩

/-- The body of the `try` block of `analyze`: the five sub-analyses in
source order.  Blocks 1–4 are total; only the platform block can fault
(through `_get_date_range`). -/
def analyzeCore (rng : Nat → Nat) (data : Dataset) : Except String Insights :=
  match analyzePlatforms data with
  | Except.error e => Except.error e
  | Except.ok pi =>
    Except.ok ⟨analyzePostingTimes rng data, analyzeViralPatterns data,
               analyzeEngagement data, analyzeKeywords data, pi⟩

/-- The `except Exception` handler of `analyze`. -/
def handleFailure : Except String Insights → Insights
  | Except.ok i => i
  | Except.error _ => emptyInsights

/-- `analyze`: run the body, substitute the all-empty Insights on any
internal fault.  Total by construction — no fault escapes to the caller. -/
def analyze (rng : Nat → Nat) (data : Dataset) : Insights :=
  handleFailure (analyzeCore rng data)

/-! ### Recommendations (`get_recommendations`) -/

/-- Read a string-sequence entry of the viral block
(`viral_patterns.get(k, [])`). -/
def vGet (ins : Insights) (k : String) : List String :=
  match lookupStr k ins.viral_content_patterns with
  | some (VVal.strs l) => l
  | _ => []

/-- `stats.get("avg_views", stats.get("avg_upvotes", 0))`. -/
def EngStat.engagement : EngStat → Nat
  | .yt av _ _ _ _ _ => av
  | .rd au _ _ _ => au
  | .news _ _ => 0

/-- The four fixed generic recommendations of the fallback rule. -/
def genericRecs : List String :=
  ["📅 Post during business hours (9 AM - 5 PM) for maximum reach",
   "🔥 Use emotional triggers in your headlines",
   "🎯 Include clear call-to-actions in your content",
   "📊 Use data and statistics to build credibility"]

/-- `get_recommendations`: the five rules in source order, appending to one
accumulator, then truncation to the first five entries. -/
def getRecommendations (ins : Insights) : List String :=
  let recs := ins.best_posting_times.foldl (fun acc pt =>
    if pt.2.best_time_range ≠ "" then
      acc ++ ["📅 Post on " ++ pt.1 ++ " between " ++ pt.2.best_time_range ++
              " for maximum reach"]
    else acc) []
  let viral_keywords := vGet ins "common_keywords_in_viral"
  let recs :=
    if viral_keywords ≠ [] then
      recs ++ ["🔥 Include these keywords in content: " ++
               String.intercalate ", " (viral_keywords.take 3)]
    else recs
  let recs :=
    if ins.engagement_insights ≠ [] then
      let best := ins.engagement_insights.foldl
        (fun (b : Option String × Nat) pe =>
          if pe.2.engagement > b.2 then (some pe.1, pe.2.engagement) else b)
        (none, 0)
      match best with
      | (some p, e) =>
        if p ≠ "" ∧ e > 0 then
          recs ++ ["🎯 Focus on " ++ p ++ " for highest engagement (avg: " ++
                   commaFmt e ++ ")"]
        else recs
      | (none, _) => recs
    else recs
  let recs := ins.keyword_performance.foldl (fun acc pk =>
    match pk.2 with
    | [] => acc
    | k0 :: kt =>
      let best := kt.foldl (fun b x =>
        if x.2.avg_engagement > b.2.avg_engagement then x else b) k0
      if best.2.avg_engagement > 0 then
        acc ++ ["🔑 On " ++ pk.1 ++ ", \x27" ++ best.1 ++
                "\x27 performs best (" ++ commaFmt best.2.avg_engagement ++
                " avg engagement)"]
      else acc) recs
  let recs := if recs = [] then genericRecs else recs
  recs.take 5

/-! ### Claim-side definitions

These follow the wording of the specification (not the source) and exist
to be compared against the embedded code. -/

/-- Hour extraction as worded by the spec: ISO-8601 first (trailing `Z`
normalized), the fixed `strptime` pattern second. -/
def specParseHour (s : String) : Option Nat :=
  match isoParse (if endsWithZ s then replaceZ s else s) with
  | some dt => some dt.hour
  | none => (strpParse s).map (fun dt => dt.hour)

/-- Ranking relation worded by the spec for peak-hour selection: higher
count first, ties broken by the smaller hour value. -/
def cntValLE (a b : Nat × Nat) : Prop := b.2 < a.2 ∨ (a.2 = b.2 ∧ a.1 ≤ b.1)

instance : DecidableRel cntValLE := fun a b => by
  unfold cntValLE; infer_instance

instance : IsTotal (Nat × Nat) cntValLE := by
  constructor
  intro a b
  unfold cntValLE
  rcases Nat.lt_trichotomy a.2 b.2 with h | h | h
  · exact Or.inr (Or.inl h)
  · rcases Nat.le_total a.1 b.1 with h' | h'
    · exact Or.inl (Or.inr ⟨h, h'⟩)
    · exact Or.inr (Or.inr ⟨h.symm, h'⟩)
  · exact Or.inl (Or.inl h)

instance : IsTrans (Nat × Nat) cntValLE := by
  constructor
  intro a b c hab hbc
  unfold cntValLE at *
  rcases hab with h | ⟨he, hv⟩
  · rcases hbc with h' | ⟨he', _⟩
    · exact Or.inl (Nat.lt_trans h' h)
    · exact Or.inl (he' ▸ h)
  · rcases hbc with h' | ⟨he', hv'⟩
    · exact Or.inl (he ▸ h')
    · exact Or.inr ⟨he.trans he', hv.trans hv'⟩

/-- Top-three peak hours as worded by the spec: most frequent first, ties
broken by the smaller hour value, selection then sorted ascending. -/
def specTop3Claim (hours : List Nat) : List Nat :=
  sortNat (((List.insertionSort cntValLE (firstOcc hours)).take 3).map Prod.fst)

/-- Engagement trend as worded by the spec: the metric is selected by the
platform key with the same dispatch as the engagement block. -/
def specTrend (p : String) (items : List Item) : String :=
  trendWith (fun it =>
    if p = "youtube" then it.views else if p = "reddit" then it.upvotes else 0) items

/-- Rule 1 of the recommendation synthesizer: one posting-time string per
platform with a non-empty time range. -/
def rule1 (ins : Insights) : List String :=
  ins.best_posting_times.filterMap (fun pt =>
    if pt.2.best_time_range ≠ "" then
      some ("📅 Post on " ++ pt.1 ++ " between " ++ pt.2.best_time_range ++
            " for maximum reach")
    else none)

/-- Rule 2: one viral-keyword string naming the first three entries. -/
def rule2 (ins : Insights) : List String :=
  if vGet ins "common_keywords_in_viral" ≠ [] then
    ["🔥 Include these keywords in content: " ++
     String.intercalate ", " ((vGet ins "common_keywords_in_viral").take 3)]
  else []

/-- The best-platform fold of rule 3 (first strictly-greater wins). -/
def bestEngFold (ins : Insights) : Option String × Nat :=
  ins.engagement_insights.foldl
    (fun (b : Option String × Nat) pe =>
      if pe.2.engagement > b.2 then (some pe.1, pe.2.engagement) else b)
    (none, 0)

/-- Rule 3: one best-engagement-platform string, only for a positive
winning value (and a truthy platform name). -/
def rule3 (ins : Insights) : List String :=
  if ins.engagement_insights ≠ [] then
    match bestEngFold ins with
    | (some p, e) =>
      if p ≠ "" ∧ e > 0 then
        ["🎯 Focus on " ++ p ++ " for highest engagement (avg: " ++
         commaFmt e ++ ")"]
      else []
    | (none, _) => []
  else []

/-- The per-platform candidate of rule 4: the keyword with the maximal
average engagement (first maximum wins), kept only when positive. -/
def rule4F (pk : String × List (String × KwStat)) : Option String :=
  match pk.2 with
  | [] => none
  | k0 :: kt =>
    let best := kt.foldl (fun b x =>
      if x.2.avg_engagement > b.2.avg_engagement then x else b) k0
    if best.2.avg_engagement > 0 then
      some ("🔑 On " ++ pk.1 ++ ", \x27" ++ best.1 ++ "\x27 performs best (" ++
            commaFmt best.2.avg_engagement ++ " avg engagement)")
    else none

/-- Rule 4: one best-keyword string per platform with keyword data. -/
def rule4 (ins : Insights) : List String :=
  ins.keyword_performance.filterMap rule4F

/-- The recommendation list as worded by the spec: the four rules in fixed
order, the generic fallback when they produce nothing, truncation to five. -/
def recsSpec (ins : Insights) : List String :=
  ((if rule1 ins ++ rule2 ins ++ rule3 ins ++ rule4 ins = [] then genericRecs
    else rule1 ins ++ rule2 ins ++ rule3 ins ++ rule4 ins).take 5)

/-- Viral titles as worded by the spec: up to the first five viral records,
titles truncated to 100 characters (empty titles contribute nothing). -/
def specViralTitles (yt : List Item) : List String :=
  ((viralOf yt).take 5).filterMap titleTrunc100

/-- Viral keywords as worded by the spec: the ten most common lowercase
words of length at least four over the concatenated viral titles. -/
def specViralKeywords (yt : List Item) : List String :=
  ((mostCommon (tokenizeWords (strToLower (String.intercalate " "
      ((viralOf yt).filterMap (fun v => if v.title ≠ "" then some v.title else none)))))).take 10).map
    Prod.fst

/-! ### Concrete fixtures for witnesses and counterexamples -/

/-- A fixed random stream (every draw is 0, so every fallback hour is 9). -/
def rng0 : Nat → Nat := fun _ => 0

/-- Scenario A input: two youtube records with views 100/300, likes 10/30. -/
def dataA : Dataset :=
  [("youtube", [{ views := 100, likes := 10 }, { views := 300, likes := 30 }])]

/-- Scenario B input: one reddit record with all-zero metrics. -/
def dataB : Dataset := [("reddit", [{ upvotes := 0, comments := 0 }])]

/-- An input whose records mix an offset-aware and an offset-naive
timestamp: `min` over the parsed dates raises `TypeError` in Python, which
is the internal fault channel of `analyze`. -/
def dataMix : Dataset :=
  [("news", [{ published_at := "2024-01-01T00:00:00Z" },
             { published_at := "2024-01-02T00:00:00" }])]

/-- A platform with one record whose `published_at` is absent. -/
def dataC3 : Dataset := [("p", [{}])]

/-- A record whose timestamp parses as ISO-8601 (space separator, no
seconds) but not with the fixed `strptime` pattern. -/
def itSpace : Item := { published_at := "2024-01-15 10:00" }

/-- Four records whose hours are 1, 5, 3, 2 in input order (all counts
equal, so peak-hour selection is decided purely by the tie-break). -/
def dataC4 : Dataset :=
  [("p", [{ published_at := "2024-01-01T01:00:00" },
          { published_at := "2024-01-01T05:00:00" },
          { published_at := "2024-01-01T03:00:00" },
          { published_at := "2024-01-01T02:00:00" }])]

/-- A nonempty platform outside the three recognized identifiers. -/
def dataC6 : Dataset := [("tiktok", [{ title := "abc", views := 5 }])]

/-- Six reddit-keyed records whose `platform` field contains `"youtube"`:
equal upvotes, views jumping in the second half. -/
def itemsC8 : List Item :=
  [{ published_at := "2024-01-01 00:00:00", platform := "youtube_suggested",
     views := 0, upvotes := 10 },
   { published_at := "2024-01-02 00:00:00", platform := "youtube_suggested",
     views := 0, upvotes := 10 },
   { published_at := "2024-01-03 00:00:00", platform := "youtube_suggested",
     views := 0, upvotes := 10 },
   { published_at := "2024-01-04 00:00:00", platform := "youtube_suggested",
     views := 100, upvotes := 10 },
   { published_at := "2024-01-05 00:00:00", platform := "youtube_suggested",
     views := 100, upvotes := 10 },
   { published_at := "2024-01-06 00:00:00", platform := "youtube_suggested",
     views := 100, upvotes := 10 }]

/-- The reddit-keyed dataset built from `itemsC8`. -/
def dataC8 : Dataset := [("reddit", itemsC8)]

/-- A dataset with one nonempty and one empty platform whose analysis
succeeds (used to instantiate the success-path invariants). -/
def dataC2 : Dataset :=
  [("youtube", [{ title := "a", views := 100, likes := 10 },
                { title := "b", views := 300, likes := 30 }]),
   ("forum", [])]

/-! ### Lookup lemmas -/

theorem lookupStr_cons_self {β : Type} (p : String) (v : β) (l : List (String × β)) :
    lookupStr p ((p, v) :: l) = some v := by
  simp [lookupStr]

theorem lookupStr_cons_ne {β : Type} {p q : String} (h : q ≠ p) (v : β)
    (l : List (String × β)) : lookupStr p ((q, v) :: l) = lookupStr p l := by
  simp [lookupStr, h]

theorem key_ne_of_nodup_of_mem {β : Type} {q p : String} {v : β}
    {tl : List (String × β)} (hnd : q ∉ tl.map Prod.fst) (hmem : (p, v) ∈ tl) :
    q ≠ p := by
  intro h
  exact hnd (h ▸ (List.mem_map_of_mem Prod.fst hmem))

/-- Any key of the posting-time block comes from a nonempty platform of the
input. -/
theorem postingTimes_lookup_mem {p : String} {pt : PTimes} :
    ∀ (data : Dataset) (rng : Nat → Nat),
      lookupStr p (analyzePostingTimes rng data) = some pt →
      ∃ items, (p, items) ∈ data ∧ items ≠ [] := by
  intro data
  induction data with
  | nil => intro rng h; simp [analyzePostingTimes, lookupStr] at h
  | cons hd tl ih =>
    intro rng h
    obtain ⟨q, its⟩ := hd
    by_cases hits : its = []
    · simp only [analyzePostingTimes, if_pos hits] at h
      obtain ⟨items, hm, hne⟩ := ih rng h
      exact ⟨items, List.mem_cons_of_mem _ hm, hne⟩
    · simp only [analyzePostingTimes, if_neg hits] at h
      by_cases hqp : q = p
      · exact ⟨its, by rw [hqp]; exact List.mem_cons_self .., hits⟩
      · rw [lookupStr_cons_ne hqp] at h
        obtain ⟨items, hm, hne⟩ := ih _ h
        exact ⟨items, List.mem_cons_of_mem _ hm, hne⟩

/-- Every nonempty platform of the input appears in the posting-time
block. -/
theorem postingTimes_lookup_some {p : String} {items : List Item} :
    ∀ (data : Dataset) (rng : Nat → Nat),
      (data.map Prod.fst).Nodup → (p, items) ∈ data → items ≠ [] →
      ∃ pt, lookupStr p (analyzePostingTimes rng data) = some pt := by
  intro data
  induction data with
  | nil => intro rng _ h; simp at h
  | cons hd tl ih =>
    intro rng hnd hmem hne
    obtain ⟨q, its⟩ := hd
    simp only [List.map_cons, List.nodup_cons] at hnd
    rcases List.mem_cons.mp hmem with heq | htl
    · cases heq
      simp only [analyzePostingTimes, if_neg hne]
      exact ⟨_, lookupStr_cons_self ..⟩
    · have hqp : q ≠ p := key_ne_of_nodup_of_mem hnd.1 htl
      by_cases hits : its = []
      · simp only [analyzePostingTimes, if_pos hits]
        exact ih rng hnd.2 htl hne
      · simp only [analyzePostingTimes, if_neg hits]
        rw [lookupStr_cons_ne hqp]
        exact ih _ hnd.2 htl hne

/-- Every posting-time entry is either the fixed default or the statistics
of the nonempty hour list extracted for its platform. -/
theorem postingTimes_entry_shape {p : String} {pt : PTimes} :
    ∀ (data : Dataset) (rng : Nat → Nat),
      lookupStr p (analyzePostingTimes rng data) = some pt →
      pt = defaultPTimes ∨
        ∃ hours : List Nat, hours ≠ [] ∧
          (∃ (rng' : Nat → Nat) (items : List Item),
             hours = (extractHours rng' items).1) ∧
          pt = buildTimesEntry hours := by
  intro data
  induction data with
  | nil => intro rng h; simp [analyzePostingTimes, lookupStr] at h
  | cons hd tl ih =>
    intro rng h
    obtain ⟨q, its⟩ := hd
    by_cases hits : its = []
    · simp only [analyzePostingTimes, if_pos hits] at h
      exact ih rng h
    · simp only [analyzePostingTimes, if_neg hits] at h
      by_cases hqp : q = p
      · subst hqp
        rw [lookupStr_cons_self] at h
        injection h with h
        by_cases hh : (extractHours rng its).1 = []
        · left
          rw [← h]
          simp [hh]
        · right
          refine ⟨(extractHours rng its).1, hh, ⟨rng, its, rfl⟩, ?_⟩
          rw [← h]
          simp [hh]
      · rw [lookupStr_cons_ne hqp] at h
        exact ih _ h

/-- Any key of the engagement block is one of the three recognized
platform identifiers and comes from a nonempty platform of the input. -/
theorem engagement_lookup_mem {p : String} {s : EngStat} :
    ∀ data : Dataset,
      lookupStr p (analyzeEngagement data) = some s →
      (p = "youtube" ∨ p = "reddit" ∨ p = "google_news") ∧
        ∃ items, (p, items) ∈ data ∧ items ≠ [] := by
  intro data
  induction data with
  | nil => intro h; simp [analyzeEngagement, lookupStr] at h
  | cons hd tl ih =>
    intro h
    obtain ⟨q, its⟩ := hd
    by_cases hits : its = []
    · simp only [analyzeEngagement, if_pos hits] at h
      obtain ⟨hn, items, hm, hne⟩ := ih h
      exact ⟨hn, items, List.mem_cons_of_mem _ hm, hne⟩
    · simp only [analyzeEngagement, if_neg hits] at h
      by_cases h1 : q = "youtube"
      · rw [if_pos h1] at h
        by_cases hqp : q = p
        · subst hqp
          exact ⟨Or.inl h1, its, List.mem_cons_self .., hits⟩
        · rw [lookupStr_cons_ne hqp] at h
          obtain ⟨hn, items, hm, hne⟩ := ih h
          exact ⟨hn, items, List.mem_cons_of_mem _ hm, hne⟩
      · rw [if_neg h1] at h
        by_cases h2 : q = "reddit"
        · rw [if_pos h2] at h
          by_cases hqp : q = p
          · subst hqp
            exact ⟨Or.inr (Or.inl h2), its, List.mem_cons_self .., hits⟩
          · rw [lookupStr_cons_ne hqp] at h
            obtain ⟨hn, items, hm, hne⟩ := ih h
            exact ⟨hn, items, List.mem_cons_of_mem _ hm, hne⟩
        · rw [if_neg h2] at h
          by_cases h3 : q = "google_news"
          · rw [if_pos h3] at h
            by_cases hqp : q = p
            · subst hqp
              exact ⟨Or.inr (Or.inr h3), its, List.mem_cons_self .., hits⟩
            · rw [lookupStr_cons_ne hqp] at h
              obtain ⟨hn, items, hm, hne⟩ := ih h
              exact ⟨hn, items, List.mem_cons_of_mem _ hm, hne⟩
          · rw [if_neg h3] at h
            obtain ⟨hn, items, hm, hne⟩ := ih h
            exact ⟨hn, items, List.mem_cons_of_mem _ hm, hne⟩

/-- Any key of the keyword block comes from a nonempty platform of the
input. -/
theorem keywords_lookup_mem {p : String} {s : List (String × KwStat)} :
    ∀ data : Dataset,
      lookupStr p (analyzeKeywords data) = some s →
      ∃ items, (p, items) ∈ data ∧ items ≠ [] := by
  intro data
  induction data with
  | nil => intro h; simp [analyzeKeywords, lookupStr] at h
  | cons hd tl ih =>
    intro h
    obtain ⟨q, its⟩ := hd
    by_cases hits : its = []
    · simp only [analyzeKeywords, if_pos hits] at h
      obtain ⟨items, hm, hne⟩ := ih h
      exact ⟨items, List.mem_cons_of_mem _ hm, hne⟩
    · simp only [analyzeKeywords, if_neg hits] at h
      by_cases hqp : q = p
      · subst hqp
        exact ⟨its, List.mem_cons_self .., hits⟩
      · rw [lookupStr_cons_ne hqp] at h
        obtain ⟨items, hm, hne⟩ := ih h
        exact ⟨items, List.mem_cons_of_mem _ hm, hne⟩

/-- On the success path, every nonempty platform gets a platform-insights
entry carrying its record count. -/
theorem platforms_lookup_some {p : String} {items : List Item} :
    ∀ (data : Dataset) (l : List (String × PlatIns)),
      analyzePlatforms data = Except.ok l →
      (data.map Prod.fst).Nodup → (p, items) ∈ data → items ≠ [] →
      ∃ dr, lookupStr p l =
        some ⟨items.length, dr, getTopKeywords items, getEngagementTrend items⟩ := by
  intro data
  induction data with
  | nil => intro l _ _ h; simp at h
  | cons hd tl ih =>
    intro l hok hnd hmem hne
    obtain ⟨q, its⟩ := hd
    simp only [List.map_cons, List.nodup_cons] at hnd
    rcases List.mem_cons.mp hmem with heq | htl
    · cases heq
      simp only [analyzePlatforms, if_neg hne] at hok
      rcases hdr : getDateRange items with e | dr
      · rw [hdr] at hok; simp at hok
      · rw [hdr] at hok
        rcases hrest : analyzePlatforms tl with e | r
        · rw [hrest] at hok; simp at hok
        · rw [hrest] at hok
          simp only [Except.ok.injEq] at hok
          rw [← hok]
          exact ⟨dr, lookupStr_cons_self ..⟩
    · have hqp : q ≠ p := key_ne_of_nodup_of_mem hnd.1 htl
      by_cases hits : its = []
      · simp only [analyzePlatforms, if_pos hits] at hok
        exact ih l hok hnd.2 htl hne
      · simp only [analyzePlatforms, if_neg hits] at hok
        rcases hdr : getDateRange its with e | dr
        · rw [hdr] at hok; simp at hok
        · rw [hdr] at hok
          rcases hrest : analyzePlatforms tl with e | r
          · rw [hrest] at hok; simp at hok
          · rw [hrest] at hok
            simp only [Except.ok.injEq] at hok
            rw [← hok, lookupStr_cons_ne hqp]
            exact ih r hrest hnd.2 htl hne

/-- On the success path, any key of the platform-insights block comes from
a nonempty platform of the input. -/
theorem platforms_lookup_mem {p : String} {s : PlatIns} :
    ∀ (data : Dataset) (l : List (String × PlatIns)),
      analyzePlatforms data = Except.ok l → lookupStr p l = some s →
      ∃ items, (p, items) ∈ data ∧ items ≠ [] := by
  intro data
  induction data with
  | nil => intro l hok h
           simp only [analyzePlatforms, Except.ok.injEq] at hok
           rw [← hok] at h
           simp [lookupStr] at h
  | cons hd tl ih =>
    intro l hok h
    obtain ⟨q, its⟩ := hd
    by_cases hits : its = []
    · simp only [analyzePlatforms, if_pos hits] at hok
      obtain ⟨items, hm, hne⟩ := ih l hok h
      exact ⟨items, List.mem_cons_of_mem _ hm, hne⟩
    · simp only [analyzePlatforms, if_neg hits] at hok
      rcases hdr : getDateRange its with e | dr
      · rw [hdr] at hok; simp at hok
      · rw [hdr] at hok
        rcases hrest : analyzePlatforms tl with e | r
        · rw [hrest] at hok; simp at hok
        · rw [hrest] at hok
          simp only [Except.ok.injEq] at hok
          rw [← hok] at h
          by_cases hqp : q = p
          · subst hqp
            exact ⟨its, List.mem_cons_self .., hits⟩
          · rw [lookupStr_cons_ne hqp] at h
            obtain ⟨items, hm, hne⟩ := ih r hrest h
            exact ⟨items, List.mem_cons_of_mem _ hm, hne⟩

/-! ### Hour bounds through the parsers -/

theorem parseNum2or1_le {lo2 hi2 lo1 hi1 : Nat} :
    ∀ {l : List Char} {v : Nat} {r : List Char},
      parseNum2or1 lo2 hi2 lo1 hi1 l = some (v, r) → v ≤ hi2 ∨ v ≤ hi1 := by
  intro l v r h
  match l with
  | [] => simp [parseNum2or1] at h
  | [a] =>
    simp only [parseNum2or1] at h
    split at h
    · split at h
      · simp only [Option.some.injEq, Prod.mk.injEq] at h
        rename_i hg
        simp only [Bool.and_eq_true, decide_eq_true_eq] at hg
        exact Or.inr (h.1 ▸ hg.2)
      · simp at h
    · simp at h
  | a :: b :: t =>
    simp only [parseNum2or1] at h
    split at h
    · split at h
      · simp only [Option.some.injEq, Prod.mk.injEq] at h
        rename_i hg
        simp only [Bool.and_eq_true, decide_eq_true_eq] at hg
        exact Or.inl (h.1 ▸ hg.2)
      · simp at h
    · split at h
      · split at h
        · simp only [Option.some.injEq, Prod.mk.injEq] at h
          rename_i hg
          simp only [Bool.and_eq_true, decide_eq_true_eq] at hg
          exact Or.inr (h.1 ▸ hg.2)
        · simp at h
      · simp at h

theorem finishTZ_hour {y m d hh mm ss : Nat} :
    ∀ {l : List Char} {dt : DT}, finishTZ y m d hh mm ss l = some dt →
      dt.hour = hh := by
  intro l dt h
  unfold finishTZ at h
  split at h
  · injection h with h
    rw [← h]
  · rcases Option.map_eq_some'.mp h with ⟨off, _, h2⟩
    rw [← h2]
  · rcases Option.map_eq_some'.mp h with ⟨off, _, h2⟩
    rw [← h2]
  · simp at h

theorem parseSecTail_hour {y m d hh mm : Nat} :
    ∀ {l : List Char} {dt : DT}, parseSecTail y m d hh mm l = some dt →
      dt.hour = hh := by
  intro l dt h
  unfold parseSecTail at h
  split at h
  · split at h
    · simp at h
    · split at h
      · split at h
        · simp at h
        · exact finishTZ_hour h
      · simp at h
  · exact finishTZ_hour h

theorem parseMinTail_hour {y m d hh : Nat} :
    ∀ {l : List Char} {dt : DT}, parseMinTail y m d hh l = some dt →
      dt.hour = hh := by
  intro l dt h
  unfold parseMinTail at h
  split at h
  · split at h
    · simp at h
    · split at h
      · exact parseSecTail_hour h
      · simp at h
  · exact finishTZ_hour h

theorem isoParse_hour_le {s : String} {dt : DT} (h : isoParse s = some dt) :
    dt.hour ≤ 23 := by
  unfold isoParse at h
  split at h
  · simp at h
  · split at h
    · simp at h
    · split at h
      · simp at h
      · split at h
        · simp at h
        · split at h
          · simp at h
          · split at h
            · split at h
              · injection h with h
                rw [← h]
                exact Nat.zero_le 23
              · split at h
                · simp at h
                · split at h
                  · rename_i hle
                    rw [parseMinTail_hour h]
                    exact hle
                  · simp at h
            · simp at h

theorem strpParse_hour_le {s : String} {dt : DT} (h : strpParse s = some dt) :
    dt.hour ≤ 23 := by
  unfold strpParse at h
  simp only [Option.bind_eq_some, Prod.exists] at h
  obtain ⟨y, r1, h4, r2, he1, m, r3, hm, r4, he2, d, r5, hd, r6, he3, hh, r7,
    hhh, r8, he4, mi, r9, hmi, r10, he5, ss, r11, hss, hfin⟩ := h
  split at hfin
  · injection hfin with hfin
    rw [← hfin]
    rcases parseNum2or1_le hhh with hb | hb
    · exact hb
    · exact Nat.le_trans hb (by omega)
  · simp at hfin

theorem parsePub_hour_le {s : String} {dt : DT} (h : parsePub s = some dt) :
    dt.hour ≤ 23 := by
  unfold parsePub at h
  split at h
  · simp at h
  · split at h
    · exact isoParse_hour_le h
    · exact strpParse_hour_le h

/-! ### Hour-extraction lemmas -/

theorem randHour_bounds (r : Nat) : 9 ≤ randHour r ∧ randHour r ≤ 17 := by
  unfold randHour
  have := Nat.mod_lt r (show 0 < 9 by omega)
  omega

theorem classifyPub_hourVal {s : String} {h : Nat}
    (hc : classifyPub s = PubClass.hourVal h) :
    ∃ dt, parsePub s = some dt ∧ dt.hour = h := by
  unfold classifyPub at hc
  split at hc
  · simp at hc
  · split at hc
    · rename_i dt hp
      injection hc with hc
      exact ⟨dt, hp, hc⟩
    · simp at hc

theorem classifyPub_randFill {s : String} (hne : s ≠ "")
    (hp : parsePub s = none) : classifyPub s = PubClass.randFill := by
  unfold classifyPub
  rw [if_neg hne, hp]

theorem classifyPub_of_parse {s : String} {dt : DT} (hne : s ≠ "")
    (hp : parsePub s = some dt) : classifyPub s = PubClass.hourVal dt.hour := by
  unfold classifyPub
  rw [if_neg hne, hp]

/-- Every extracted hour is at most 23 (parsed hours by the calendar
bounds, fallback hours by the business-hours range). -/
theorem extractHours_le23 :
    ∀ (items : List Item) (rng : Nat → Nat),
      ∀ h ∈ (extractHours rng items).1, h ≤ 23 := by
  intro items
  induction items with
  | nil => intro rng h hm; simp [extractHours] at hm
  | cons it rest ih =>
    intro rng h hm
    rcases hc : classifyPub it.published_at with _ | hv | _
    · rw [extractHours, hc] at hm
      exact ih rng h hm
    · rw [extractHours, hc] at hm
      rcases List.mem_cons.mp hm with heq | hm'
      · obtain ⟨dt, _, hdt⟩ := classifyPub_hourVal hc
        exact heq ▸ hdt ▸ parsePub_hour_le (by assumption)
      · exact ih rng h hm'
    · rw [extractHours, hc] at hm
      rcases List.mem_cons.mp hm with heq | hm'
      · have := randHour_bounds (rng 0)
        omega
      · exact ih _ h hm'

/-- When every record's timestamp is nonempty and unparsable, one fallback
hour in [9,17] is extracted per record. -/
theorem extractHours_all_rand :
    ∀ (items : List Item) (rng : Nat → Nat),
      (∀ it ∈ items, it.published_at ≠ "" ∧ parsePub it.published_at = none) →
      (extractHours rng items).1.length = items.length ∧
        ∀ h ∈ (extractHours rng items).1, 9 ≤ h ∧ h ≤ 17 := by
  intro items
  induction items with
  | nil => intro rng _; simp [extractHours]
  | cons it rest ih =>
    intro rng hall
    have hc : classifyPub it.published_at = PubClass.randFill :=
      classifyPub_randFill (hall it (List.mem_cons_self ..)).1
        (hall it (List.mem_cons_self ..)).2
    have hr := ih (fun i => rng (i + 1))
      (fun x hx => hall x (List.mem_cons_of_mem _ hx))
    constructor
    · rw [extractHours, hc]
      simpa using hr.1
    · intro h hm
      rw [extractHours, hc] at hm
      rcases List.mem_cons.mp hm with heq | hm'
      · exact heq ▸ randHour_bounds (rng 0)
      · exact hr.2 h hm'

/-! ### Histogram and sorting lemmas -/

theorem mem_dedupFirst_aux {α : Type} [BEq α] :
    ∀ (l acc : List α) (x : α),
      x ∈ l.foldl (fun acc x => if acc.contains x then acc else acc ++ [x]) acc →
      x ∈ acc ∨ x ∈ l := by
  intro l
  induction l with
  | nil => intro acc x h; exact Or.inl h
  | cons a t ih =>
    intro acc x h
    simp only [List.foldl_cons] at h
    rcases ih _ x h with hacc | ht
    · rcases hc : acc.contains a with _ | _
      · rw [hc] at hacc
        simp only [Bool.false_eq_true, if_false] at hacc
        rcases List.mem_append.mp hacc with h1 | h2
        · exact Or.inl h1
        · simp only [List.mem_singleton] at h2
          exact Or.inr (h2 ▸ List.mem_cons_self ..)
      · rw [hc] at hacc
        simp only [if_true] at hacc
        exact Or.inl hacc
    · exact Or.inr (List.mem_cons_of_mem _ ht)

theorem mem_dedupFirst {α : Type} [BEq α] {l : List α} {x : α}
    (h : x ∈ dedupFirst l) : x ∈ l := by
  rcases mem_dedupFirst_aux l [] x h with h' | h'
  · simp at h'
  · exact h'

theorem mem_foldl_dedup_of_mem_acc {α : Type} [BEq α] :
    ∀ (l acc : List α) (x : α), x ∈ acc →
      x ∈ l.foldl (fun acc x => if acc.contains x then acc else acc ++ [x]) acc := by
  intro l
  induction l with
  | nil => intro acc x h; exact h
  | cons a t ih =>
    intro acc x h
    simp only [List.foldl_cons]
    apply ih
    split
    · exact h
    · exact List.mem_append_left _ h

theorem mem_dedupFirst_of_mem {α : Type} [BEq α] [LawfulBEq α] :
    ∀ (l acc : List α) (x : α), x ∈ l →
      x ∈ l.foldl (fun acc x => if acc.contains x then acc else acc ++ [x]) acc := by
  intro l
  induction l with
  | nil => intro acc x h; simp at h
  | cons a t ih =>
    intro acc x h
    simp only [List.foldl_cons]
    rcases List.mem_cons.mp h with heq | ht
    · subst heq
      split
      · next hc => exact mem_foldl_dedup_of_mem_acc t _ x (List.mem_of_elem_eq_true hc)
      · exact mem_foldl_dedup_of_mem_acc t _ x
          (List.mem_append_right _ (List.mem_singleton.mpr rfl))
    · exact ih _ x ht

theorem dedupFirst_ne_nil {α : Type} [BEq α] [LawfulBEq α] {l : List α}
    (h : l ≠ []) : dedupFirst l ≠ [] := by
  match l, h with
  | a :: t, _ =>
    intro hc
    have := mem_dedupFirst_of_mem (a :: t) [] a (List.mem_cons_self ..)
    rw [show List.foldl _ [] (a :: t) = dedupFirst (a :: t) from rfl, hc] at this
    simp at this

theorem mem_firstOcc {α : Type} [BEq α] {l : List α} {p : α × Nat}
    (h : p ∈ firstOcc l) : p.1 ∈ l := by
  unfold firstOcc at h
  rcases List.mem_map.mp h with ⟨x, hx, hpx⟩
  rw [← hpx]
  exact mem_dedupFirst hx

theorem firstOcc_ne_nil {α : Type} [BEq α] [LawfulBEq α] {l : List α}
    (h : l ≠ []) : firstOcc l ≠ [] := by
  unfold firstOcc
  intro hc
  exact dedupFirst_ne_nil h (List.map_eq_nil_iff.mp hc)

theorem mem_valueCounts {l : List Nat} {p : Nat × Nat} (h : p ∈ valueCounts l) :
    p.1 ∈ l := by
  unfold valueCounts at h
  rw [List.mem_reverse] at h
  exact mem_firstOcc ((List.perm_insertionSort cntLE (firstOcc l)).mem_iff.mp h)

theorem valueCounts_ne_nil {l : List Nat} (h : l ≠ []) : valueCounts l ≠ [] := by
  unfold valueCounts
  intro hc
  rw [List.reverse_eq_nil_iff] at hc
  have hp := List.perm_insertionSort cntLE (firstOcc l)
  rw [hc] at hp
  exact firstOcc_ne_nil h hp.symm.eq_nil

/-- The count column of `value_counts` is nonincreasing. -/
theorem valueCounts_sorted (l : List Nat) :
    (valueCounts l).Pairwise (fun a b => b.2 ≤ a.2) := by
  unfold valueCounts
  rw [List.pairwise_reverse]
  exact List.sorted_insertionSort cntLE (firstOcc l)

theorem pairwise_take_drop {α : Type} {R : α → α → Prop} {l : List α}
    (h : l.Pairwise R) (n : Nat) :
    ∀ a ∈ l.take n, ∀ b ∈ l.drop n, R a b := by
  rw [← List.take_append_drop n l] at h
  exact (List.pairwise_append.mp h).2.2

theorem sortNat_sorted (l : List Nat) : (sortNat l).Pairwise (· ≤ ·) :=
  List.sorted_insertionSort _ l

theorem sortNat_perm (l : List Nat) : List.Perm (sortNat l) l :=
  List.perm_insertionSort _ l

/-! ### Posting-time entry invariants -/

/-- The time-range formula of the claim, read off a posting-time entry:
`"<min>:00 - <max>:00"` over the (ascending) peak hours, or the
three-hour window for a single peak hour. -/
def rangeFormulaOK (pt : PTimes) : Prop :=
  match pt.peak_hours with
  | [] => True
  | [h] => pt.best_time_range = toString h ++ ":00 - " ++ toString ((h + 3) % 24) ++ ":00"
  | h :: t => pt.best_time_range = toString h ++ ":00 - " ++ toString (t.getLastD h) ++ ":00"

theorem defaultPTimes_invariant :
    defaultPTimes.peak_hours.Pairwise (· ≤ ·) ∧
      defaultPTimes.peak_hours.length ≤ 3 ∧
      (∀ x ∈ defaultPTimes.peak_hours, x ≤ 23) ∧ rangeFormulaOK defaultPTimes := by
  refine ⟨by decide, by decide, by decide, ?_⟩
  show defaultPTimes.best_time_range = _
  rfl

theorem buildTimesEntry_eq {hours : List Nat} (hvc : valueCounts hours ≠ []) :
    buildTimesEntry hours =
      ⟨sortNat (((valueCounts hours).take 3).map Prod.fst),
       (match sortNat (((valueCounts hours).take 3).map Prod.fst) with
        | [] => "10:00 - 19:00"
        | [h] => toString h ++ ":00 - " ++ toString ((h + 3) % 24) ++ ":00"
        | h :: t => toString h ++ ":00 - " ++ toString (t.getLastD h) ++ ":00"),
       hours.length, ((valueCounts hours).headD (14, 0)).1⟩ := by
  simp only [buildTimesEntry, if_neg hvc]

theorem buildTimes_peak_eq {hours : List Nat} (h : hours ≠ []) :
    (buildTimesEntry hours).peak_hours =
      sortNat (((valueCounts hours).take 3).map Prod.fst) := by
  rw [buildTimesEntry_eq (valueCounts_ne_nil h)]

theorem buildTimes_invariant (hours : List Nat) (hb : ∀ x ∈ hours, x ≤ 23) :
    (buildTimesEntry hours).peak_hours.Pairwise (· ≤ ·) ∧
      (buildTimesEntry hours).peak_hours.length ≤ 3 ∧
      (∀ x ∈ (buildTimesEntry hours).peak_hours, x ≤ 23) ∧
      rangeFormulaOK (buildTimesEntry hours) := by
  by_cases hvc : valueCounts hours = []
  · have he : buildTimesEntry hours = defaultPTimes := by
      simp only [buildTimesEntry, if_pos hvc]
    rw [he]
    exact defaultPTimes_invariant
  · rw [buildTimesEntry_eq hvc]
    refine ⟨sortNat_sorted _, ?_, ?_, ?_⟩
    · show (sortNat _).length ≤ 3
      rw [(sortNat_perm _).length_eq, List.length_map]
      exact List.length_take_le ..
    · intro x hx
      rw [(sortNat_perm _).mem_iff] at hx
      rcases List.mem_map.mp hx with ⟨p, hp, hpx⟩
      exact hpx ▸ hb _ (mem_valueCounts (List.mem_of_mem_take hp))
    · unfold rangeFormulaOK
      show (match sortNat (((valueCounts hours).take 3).map Prod.fst) with
        | [] => True
        | [h] => _ = toString h ++ ":00 - " ++ toString ((h + 3) % 24) ++ ":00"
        | h :: t => _ = toString h ++ ":00 - " ++ toString (t.getLastD h) ++ ":00" : Prop)
      rcases sortNat (((valueCounts hours).take 3).map Prod.fst) with _ | ⟨h1, _ | ⟨h2, t⟩⟩
      · trivial
      · rfl
      · rfl

/-! ### Recommendation-synthesizer lemmas -/

theorem fold1_eq :
    ∀ (l : List (String × PTimes)) (acc : List String),
      l.foldl (fun acc pt =>
        if pt.2.best_time_range ≠ "" then
          acc ++ ["📅 Post on " ++ pt.1 ++ " between " ++ pt.2.best_time_range ++
                  " for maximum reach"]
        else acc) acc =
      acc ++ l.filterMap (fun pt =>
        if pt.2.best_time_range ≠ "" then
          some ("📅 Post on " ++ pt.1 ++ " between " ++ pt.2.best_time_range ++
                " for maximum reach")
        else none) := by
  intro l
  induction l with
  | nil => intro acc; simp
  | cons a t ih =>
    intro acc
    simp only [List.foldl_cons, List.filterMap_cons]
    by_cases hc : a.2.best_time_range ≠ ""
    · rw [if_pos hc, if_pos hc, ih]
      simp
    · rw [if_neg hc, if_neg hc, ih]

theorem fold4_eq :
    ∀ (l : List (String × List (String × KwStat))) (acc : List String),
      l.foldl (fun acc pk =>
        match pk.2 with
        | [] => acc
        | k0 :: kt =>
          let best := kt.foldl (fun b x =>
            if x.2.avg_engagement > b.2.avg_engagement then x else b) k0
          if best.2.avg_engagement > 0 then
            acc ++ ["🔑 On " ++ pk.1 ++ ", \x27" ++ best.1 ++
                    "\x27 performs best (" ++ commaFmt best.2.avg_engagement ++
                    " avg engagement)"]
          else acc) acc =
      acc ++ l.filterMap rule4F := by
  intro l
  induction l with
  | nil => intro acc; simp
  | cons a t ih =>
    intro acc
    obtain ⟨q, kws⟩ := a
    simp only [List.foldl_cons, List.filterMap_cons]
    rcases kws with _ | ⟨k0, kt⟩
    · rw [ih]
      simp [rule4F]
    · simp only [rule4F]
      by_cases hc : (kt.foldl (fun b x =>
          if x.2.avg_engagement > b.2.avg_engagement then x else b) k0).2.avg_engagement > 0
      · rw [if_pos hc, if_pos hc, ih]
        simp
      · rw [if_neg hc, if_neg hc, ih]

theorem rule2_step (ins : Insights) (recs : List String) :
    (if vGet ins "common_keywords_in_viral" ≠ [] then
      recs ++ ["🔥 Include these keywords in content: " ++
               String.intercalate ", " ((vGet ins "common_keywords_in_viral").take 3)]
    else recs) = recs ++ rule2 ins := by
  by_cases h : vGet ins "common_keywords_in_viral" ≠ [] <;> simp [rule2, h]

theorem rule3_step (ins : Insights) (recs : List String) :
    (if ins.engagement_insights ≠ [] then
      match ins.engagement_insights.foldl
          (fun (b : Option String × Nat) pe =>
            if pe.2.engagement > b.2 then (some pe.1, pe.2.engagement) else b)
          (none, 0) with
      | (some p, e) =>
        if p ≠ "" ∧ e > 0 then
          recs ++ ["🎯 Focus on " ++ p ++ " for highest engagement (avg: " ++
                   commaFmt e ++ ")"]
        else recs
      | (none, _) => recs
    else recs) = recs ++ rule3 ins := by
  unfold rule3 bestEngFold
  by_cases h3 : ins.engagement_insights ≠ []
  · simp only [if_pos h3]
    rcases hb : ins.engagement_insights.foldl
        (fun (b : Option String × Nat) pe =>
          if pe.2.engagement > b.2 then (some pe.1, pe.2.engagement) else b)
        (none, 0) with ⟨po, e⟩
    rw [hb]
    rcases po with _ | p
    · simp
    · by_cases hc : p ≠ "" ∧ e > 0 <;> simp [hc]
  · simp [h3]

theorem getRecommendations_eq (ins : Insights) :
    getRecommendations ins = recsSpec ins := by
  unfold getRecommendations
  simp only [fold1_eq, fold4_eq, rule2_step, rule3_step, List.nil_append]
  simp only [recsSpec, rule1, rule4, List.append_assoc]

/-! ### Viral-block lemmas -/

theorem viral_empty_case (data : Dataset)
    (h : (lookupStr "youtube" data).getD [] = []) :
    analyzeViralPatterns data =
      [("high_engagement_titles", VVal.strs []),
       ("common_keywords_in_viral", VVal.strs []),
       ("content_length_pattern", VVal.lenPat []),
       ("emotional_triggers", VVal.strs [])] := by
  simp only [analyzeViralPatterns, h, if_pos]

theorem viral_nonempty_case (data : Dataset) (yt : List Item)
    (hl : lookupStr "youtube" data = some yt) (hne : yt ≠ []) :
    lookupStr "high_engagement_titles" (analyzeViralPatterns data) =
        some (VVal.strs (specViralTitles yt)) ∧
      lookupStr "common_keywords_in_viral" (analyzeViralPatterns data) =
        some (VVal.strs (specViralKeywords yt)) := by
  simp only [analyzeViralPatterns, hl, Option.getD_some, if_neg hne]
  constructor
  · rw [lookupStr_cons_self]
    rfl
  · rw [lookupStr_cons_ne (by decide), lookupStr_cons_self]
    by_cases hT : String.intercalate " "
        (List.filterMap (fun v => if v.title ≠ "" then some v.title else none)
          (viralOf yt)) = ""
    · rw [if_pos hT]
      unfold specViralKeywords
      rw [hT]
      rfl
    · rw [if_neg hT]
      by_cases hw : tokenizeWords (strToLower (String.intercalate " "
          (List.filterMap (fun v => if v.title ≠ "" then some v.title else none)
            (viralOf yt)))) = []
      · rw [if_pos hw]
        unfold specViralKeywords
        rw [hw]
        rfl
      · rw [if_neg hw]
        rfl

theorem specViralTitles_le5 (yt : List Item) : (specViralTitles yt).length ≤ 5 := by
  unfold specViralTitles
  refine Nat.le_trans (List.length_filterMap_le ..) ?_
  rw [List.length_take]
  exact Nat.min_le_left ..

theorem specViralTitles_trunc (yt : List Item) :
    ∀ t ∈ specViralTitles yt, t.length ≤ 100 := by
  intro t ht
  unfold specViralTitles at ht
  rcases List.mem_filterMap.mp ht with ⟨it, _, hit⟩
  unfold titleTrunc100 at hit
  split at hit
  · injection hit with hit
    rw [← hit]
    show (it.title.data.take 100).length ≤ 100
    exact List.length_take_le ..
  · simp at hit

theorem specViralKeywords_le10 (yt : List Item) :
    (specViralKeywords yt).length ≤ 10 := by
  unfold specViralKeywords
  rw [List.length_map, List.length_take]
  exact Nat.min_le_left ..

/-! ### Engagement-trend lemmas -/

theorem trendWith_insufficient (eng : Item → Nat) (items : List Item) :
    trendWith eng items = "Insufficient data" ↔ items.length < 5 := by
  constructor
  · intro h
    by_contra hlen
    unfold trendWith at h
    rw [if_neg hlen] at h
    dsimp only at h
    split at h
    · split at h
      · exact absurd h (by decide)
      · split at h
        · exact absurd h (by decide)
        · split at h
          · exact absurd h (by decide)
          · split at h
            · exact absurd h (by decide)
            · exact absurd h (by decide)
    · exact absurd h (by decide)
  · intro h
    unfold trendWith
    rw [if_pos h]

theorem datedOf_length (eng : Item → Nat) :
    ∀ items : List Item,
      (items.filterMap (fun it =>
        (parsePub it.published_at).map (fun dt => (dt, eng it)))).length =
      (items.filterMap (fun it => parsePub it.published_at)).length := by
  intro items
  induction items with
  | nil => rfl
  | cons it rest ih =>
    simp only [List.filterMap_cons]
    rcases parsePub it.published_at with _ | dt
    · exact ih
    · simp only [Option.map_some', List.length_cons, ih]

theorem trendWith_stable_of_few (eng : Item → Nat) (items : List Item)
    (h5 : ¬ items.length < 5)
    (hd : ¬ 5 ≤ (items.filterMap (fun it =>
      (parsePub it.published_at).map (fun dt => (dt, eng it)))).length) :
    trendWith eng items = "Stable" := by
  unfold trendWith
  rw [if_neg h5, if_neg hd]

/-! ### Engagement-block content lemmas -/

theorem engagement_youtube_entry {items : List Item} :
    ∀ data : Dataset,
      (data.map Prod.fst).Nodup → ("youtube", items) ∈ data → items ≠ [] →
      lookupStr "youtube" (analyzeEngagement data) =
        some (EngStat.yt (sumNat (items.map (·.views)) / items.length)
          (sumNat (items.map (·.likes)) / items.length)
          (if sumNat (items.map (·.views)) > 0 then
            (sumNat (items.map (·.likes)) : ℚ) / (sumNat (items.map (·.views)) : ℚ)
          else 0)
          (maxNat (items.map (·.views))) (minNat (items.map (·.views)))
          items.length) := by
  intro data
  induction data with
  | nil => intro _ h; simp at h
  | cons hd tl ih =>
    intro hnd hmem hne
    obtain ⟨q, its⟩ := hd
    simp only [List.map_cons, List.nodup_cons] at hnd
    rcases List.mem_cons.mp hmem with heq | htl
    · cases heq
      simp only [analyzeEngagement, if_neg hne, reduceIte]
      rw [lookupStr_cons_self]
      have hlk : items.map (·.likes) ≠ [] := by
        intro hc
        exact hne (List.map_eq_nil_iff.mp hc)
      simp only [List.length_map, if_neg hlk]
    · have hqp : q ≠ "youtube" := key_ne_of_nodup_of_mem hnd.1 htl
      by_cases hits : its = []
      · simp only [analyzeEngagement, if_pos hits]
        exact ih hnd.2 htl hne
      · simp only [analyzeEngagement, if_neg hits]
        by_cases h1 : q = "youtube"
        · exact absurd h1 hqp
        · rw [if_neg h1]
          by_cases h2 : q = "reddit"
          · rw [if_pos h2, lookupStr_cons_ne hqp]
            exact ih hnd.2 htl hne
          · rw [if_neg h2]
            by_cases h3 : q = "google_news"
            · rw [if_pos h3, lookupStr_cons_ne hqp]
              exact ih hnd.2 htl hne
            · rw [if_neg h3]
              exact ih hnd.2 htl hne

theorem engagement_news_entry {items : List Item} :
    ∀ data : Dataset,
      (data.map Prod.fst).Nodup → ("google_news", items) ∈ data → items ≠ [] →
      lookupStr "google_news" (analyzeEngagement data) =
        some (EngStat.news items.length (avgTitleLen items)) := by
  intro data
  induction data with
  | nil => intro _ h; simp at h
  | cons hd tl ih =>
    intro hnd hmem hne
    obtain ⟨q, its⟩ := hd
    simp only [List.map_cons, List.nodup_cons] at hnd
    rcases List.mem_cons.mp hmem with heq | htl
    · cases heq
      simp only [analyzeEngagement, if_neg hne]
      rw [if_neg (show ¬ ("google_news" : String) = "youtube" by decide),
        if_neg (show ¬ ("google_news" : String) = "reddit" by decide),
        if_true, lookupStr_cons_self]
    · have hqp : q ≠ "google_news" := key_ne_of_nodup_of_mem hnd.1 htl
      by_cases hits : its = []
      · simp only [analyzeEngagement, if_pos hits]
        exact ih hnd.2 htl hne
      · simp only [analyzeEngagement, if_neg hits]
        by_cases h1 : q = "youtube"
        · rw [if_pos h1, lookupStr_cons_ne hqp]
          exact ih hnd.2 htl hne
        · rw [if_neg h1]
          by_cases h2 : q = "reddit"
          · rw [if_pos h2, lookupStr_cons_ne hqp]
            exact ih hnd.2 htl hne
          · rw [if_neg h2]
            by_cases h3 : q = "google_news"
            · exact absurd h3 hqp
            · rw [if_neg h3]
              exact ih hnd.2 htl hne

/-! ### Success-path decomposition of the analysis -/

theorem analyzeCore_ok {rng : Nat → Nat} {data : Dataset} {ins : Insights}
    (h : analyzeCore rng data = Except.ok ins) :
    analyzePlatforms data = Except.ok ins.platform_insights ∧
      ins.best_posting_times = analyzePostingTimes rng data ∧
      ins.viral_content_patterns = analyzeViralPatterns data ∧
      ins.engagement_insights = analyzeEngagement data ∧
      ins.keyword_performance = analyzeKeywords data := by
  unfold analyzeCore at h
  rcases hp : analyzePlatforms data with e | pi <;> rw [hp] at h
  · simp at h
  · simp only [Except.ok.injEq] at h
    rw [← h]
    exact ⟨rfl, rfl, rfl, rfl, rfl⟩

/-! ### Claim theorems -/

/-- C1: `analyze` is a total function of its input (never raises); it
equals the catch-wrapped analysis body, the success value is returned
unchanged, and any internal fault yields the Insights value in which each
of the five top-level keys is mapped to an empty mapping. -/
theorem claim_C1 (rng : Nat → Nat) (data : Dataset) :
    analyze rng data = handleFailure (analyzeCore rng data) ∧
    (∀ i, analyzeCore rng data = Except.ok i → analyze rng data = i) ∧
    (∀ e, analyzeCore rng data = Except.error e →
      analyze rng data = emptyInsights ∧
      emptyInsights.best_posting_times = [] ∧
      emptyInsights.viral_content_patterns = [] ∧
      emptyInsights.engagement_insights = [] ∧
      emptyInsights.keyword_performance = [] ∧
      emptyInsights.platform_insights = []) := by
  refine ⟨rfl, ?_, ?_⟩
  · intro i h
    unfold analyze
    rw [h]
    rfl
  · intro e h
    unfold analyze
    rw [h]
    exact ⟨rfl, rfl, rfl, rfl, rfl, rfl⟩

/-- C1 witness: a dataset mixing an offset-aware and an offset-naive
timestamp makes the analysis body fault (the Python `TypeError` of
`min` over mixed datetimes), and `analyze` returns the all-empty value. -/
theorem claim_C1_witness :
    analyzeCore rng0 dataMix =
      Except.error "cannot compare offset-naive and offset-aware datetimes" ∧
    analyze rng0 dataMix = emptyInsights := by
  constructor
  · rfl
  · exact ((claim_C1 rng0 dataMix).2.2 _ rfl).1

/-- C2: on the success path, every nonempty platform of the input keys an
entry of `best_posting_times` and of `platform_insights` (the latter with
`total_items` equal to its record count); an empty or absent platform keys
no entry of any platform-keyed block; and the keys of the viral block are
the four fixed field names, independent of the input platforms. -/
theorem claim_C2 (rng : Nat → Nat) (data : Dataset) (ins : Insights)
    (hok : analyzeCore rng data = Except.ok ins)
    (hnd : (data.map Prod.fst).Nodup) (P : String) :
    (∀ items, (P, items) ∈ data → items ≠ [] →
      (∃ pt, lookupStr P ins.best_posting_times = some pt) ∧
      (∃ pi, lookupStr P ins.platform_insights = some pi ∧
        pi.total_items = items.length)) ∧
    ((∀ items, (P, items) ∈ data → items = []) →
      lookupStr P ins.best_posting_times = none ∧
      lookupStr P ins.engagement_insights = none ∧
      lookupStr P ins.keyword_performance = none ∧
      lookupStr P ins.platform_insights = none) ∧
    ins.viral_content_patterns.map Prod.fst =
      ["high_engagement_titles", "common_keywords_in_viral",
       "content_length_pattern", "emotional_triggers"] := by
  obtain ⟨hpl, hbp, hvp, hei, hkp⟩ := analyzeCore_ok hok
  refine ⟨?_, ?_, ?_⟩
  · intro items hm hne
    constructor
    · rw [hbp]
      exact postingTimes_lookup_some data rng hnd hm hne
    · obtain ⟨dr, hdr⟩ := platforms_lookup_some data ins.platform_insights hpl hnd hm hne
      exact ⟨_, hdr, rfl⟩
  · intro hall
    refine ⟨?_, ?_, ?_, ?_⟩
    · rw [hbp]
      cases hl : lookupStr P (analyzePostingTimes rng data) with
      | none => rfl
      | some pt =>
        obtain ⟨items, hm, hne⟩ := postingTimes_lookup_mem data rng hl
        exact absurd (hall items hm) hne
    · rw [hei]
      cases hl : lookupStr P (analyzeEngagement data) with
      | none => rfl
      | some s =>
        obtain ⟨_, items, hm, hne⟩ := engagement_lookup_mem data hl
        exact absurd (hall items hm) hne
    · rw [hkp]
      cases hl : lookupStr P (analyzeKeywords data) with
      | none => rfl
      | some s =>
        obtain ⟨items, hm, hne⟩ := keywords_lookup_mem data hl
        exact absurd (hall items hm) hne
    · cases hl : lookupStr P ins.platform_insights with
      | none => rfl
      | some pi =>
        obtain ⟨items, hm, hne⟩ := platforms_lookup_mem data _ hpl hl
        exact absurd (hall items hm) hne
  · rw [hvp]
    rfl

/-- C2 witness: a dataset with a two-record `youtube` platform and an
empty `forum` platform, analyzed successfully. -/
theorem claim_C2_witness :
    ∃ ins, analyzeCore rng0 dataC2 = Except.ok ins ∧
      (∃ pt, lookupStr "youtube" ins.best_posting_times = some pt) ∧
      (∃ pi, lookupStr "youtube" ins.platform_insights = some pi ∧
        pi.total_items = 2) ∧
      lookupStr "forum" ins.best_posting_times = none ∧
      lookupStr "forum" ins.platform_insights = none := by
  have hok : analyzeCore rng0 dataC2 =
      Except.ok (handleFailure (analyzeCore rng0 dataC2)) := by rfl
  have hnd : (dataC2.map Prod.fst).Nodup := by decide
  have hY := (claim_C2 rng0 dataC2 _ hok hnd "youtube").1
    ([{ title := "a", views := 100, likes := 10 },
      { title := "b", views := 300, likes := 30 }])
    (List.mem_cons_self ..) (by decide)
  have hallF : ∀ items, ("forum", items) ∈ dataC2 → items = [] := by
    intro items hm
    rcases List.mem_cons.mp hm with h1 | h2
    · injection h1 with hq hv
      exact absurd hq (by decide)
    · rcases List.mem_cons.mp h2 with h3 | h4
      · injection h3
      · simp at h4
  have hF := (claim_C2 rng0 dataC2 _ hok hnd "forum").2.1 hallF
  exact ⟨_, hok, hY.1, hY.2, hF.1, hF.2.2.2⟩

/-- C3 counterexample: a record whose `published_at` is absent contributes
no hour at all (so one absent-dated record yields the `sample_size = 0`
default entry rather than one substituted random hour); and the string
`"2024-01-15 10:00"` parses as ISO-8601 with hour 10, yet the code — which
dispatches on the presence of `T` instead of trying ISO first — substitutes
a random business hour for it. -/
theorem claim_C3_counterexample :
    analyzePostingTimes rng0 dataC3 = [("p", defaultPTimes)] ∧
    defaultPTimes.sample_size = 0 ∧
    specParseHour "2024-01-15 10:00" = some 10 ∧
    classifyPub "2024-01-15 10:00" = PubClass.randFill ∧
    extractHours rng0 [itSpace] = ([9], 1) := by
  exact ⟨rfl, rfl, rfl, rfl, rfl⟩

theorem buildTimes_peak_mem {hours : List Nat} (h : hours ≠ []) :
    ∀ x ∈ (buildTimesEntry hours).peak_hours, x ∈ hours := by
  intro x hx
  rw [buildTimes_peak_eq h] at hx
  rw [(sortNat_perm _).mem_iff] at hx
  rcases List.mem_map.mp hx with ⟨p, hp, hpx⟩
  exact hpx ▸ mem_valueCounts (List.mem_of_mem_take hp)

theorem buildTimes_sample {hours : List Nat} (h : hours ≠ []) :
    (buildTimesEntry hours).sample_size = hours.length := by
  rw [buildTimesEntry_eq (valueCounts_ne_nil h)]

/-- C3 amended: a record with an absent (empty) `published_at` contributes
no hour; one with a parseable timestamp contributes its wall-clock hour
(strings containing `T` are parsed as ISO-8601 with a trailing `Z`
normalized, all other strings only with the fixed pattern); a nonempty
unparsable timestamp substitutes one random hour in [9,17]; a platform
whose records are all nonempty-unparsable yields `sample_size` equal to its
record count with all peak hours in [9,17]; and a platform with zero
observed hours yields the fixed default entry. -/
theorem claim_C3_amended :
    (∀ (rng : Nat → Nat) (it : Item),
      (it.published_at = "" → extractHours rng [it] = ([], 0)) ∧
      (∀ dt, parsePub it.published_at = some dt →
        extractHours rng [it] = ([dt.hour], 0)) ∧
      (it.published_at ≠ "" → parsePub it.published_at = none →
        extractHours rng [it] = ([randHour (rng 0)], 1) ∧
          9 ≤ randHour (rng 0) ∧ randHour (rng 0) ≤ 17)) ∧
    (∀ (rng : Nat → Nat) (p : String) (items : List Item), items ≠ [] →
      (∀ it ∈ items, it.published_at ≠ "" ∧ parsePub it.published_at = none) →
      ∃ pt, lookupStr p (analyzePostingTimes rng [(p, items)]) = some pt ∧
        pt.sample_size = items.length ∧
        ∀ h ∈ pt.peak_hours, 9 ≤ h ∧ h ≤ 17) ∧
    (∀ (rng : Nat → Nat) (p : String) (items : List Item), items ≠ [] →
      (extractHours rng items).1 = [] →
      lookupStr p (analyzePostingTimes rng [(p, items)]) = some defaultPTimes) := by
  refine ⟨?_, ?_, ?_⟩
  · intro rng it
    refine ⟨?_, ?_, ?_⟩
    · intro he
      rw [extractHours, show classifyPub it.published_at = PubClass.skipRec from by
        unfold classifyPub; rw [if_pos he]]
      rfl
    · intro dt hp
      have hne : it.published_at ≠ "" := by
        intro he
        rw [he] at hp
        exact absurd hp (by simp [parsePub])
      rw [extractHours, classifyPub_of_parse hne hp]
      rfl
    · intro hne hp
      rw [extractHours, classifyPub_randFill hne hp]
      exact ⟨rfl, randHour_bounds (rng 0)⟩
  · intro rng p items hne hall
    obtain ⟨hlen, hrange⟩ := extractHours_all_rand items rng hall
    have hhne : (extractHours rng items).1 ≠ [] := by
      intro hc
      rw [hc] at hlen
      exact hne (List.length_eq_zero.mp hlen.symm)
    refine ⟨buildTimesEntry (extractHours rng items).1, ?_, ?_, ?_⟩
    · simp only [analyzePostingTimes, if_neg hne, if_neg hhne]
      exact lookupStr_cons_self ..
    · rw [buildTimes_sample hhne, hlen]
    · intro h hm
      exact hrange h (buildTimes_peak_mem hhne h hm)
  · intro rng p items hne hz
    simp only [analyzePostingTimes, if_neg hne, if_pos hz]
    exact lookupStr_cons_self ..

/-- C3 amended witness: four records with nonempty unparsable timestamps
give `sample_size = 4` with all peak hours in business range; the
per-record rules instantiated at concrete records. -/
theorem claim_C3_amended_witness :
    (∃ pt, lookupStr "p"
        (analyzePostingTimes rng0 [("p",
          [{ published_at := "garbage" }, { published_at := "also bad" },
           { published_at := "nope" }, { published_at := "2024-13-40" }])]) =
        some pt ∧ pt.sample_size = 4 ∧ ∀ h ∈ pt.peak_hours, 9 ≤ h ∧ h ≤ 17) ∧
    extractHours rng0 [({ published_at := "2024-01-15T14:30:00" } : Item)] =
      ([14], 0) ∧
    extractHours rng0 [({} : Item)] = ([], 0) := by
  refine ⟨?_, ?_, ?_⟩
  · exact claim_C3_amended.2.1 rng0 "p" _ (by decide) (by
      intro it hit
      rcases List.mem_cons.mp hit with h | h
      · subst h; exact ⟨by decide, rfl⟩
      rcases List.mem_cons.mp h with h | h
      · subst h; exact ⟨by decide, rfl⟩
      rcases List.mem_cons.mp h with h | h
      · subst h; exact ⟨by decide, rfl⟩
      rcases List.mem_cons.mp h with h | h
      · subst h; exact ⟨by decide, rfl⟩
      · simp at h)
  · exact (claim_C3_amended.1 rng0 _).2.1 ⟨2024, 1, 15, 14, 30, 0, false, 0⟩ rfl
  · exact (claim_C3_amended.1 rng0 _).1 rfl

/-- C4 counterexample: four records with hours 1, 5, 3, 2 (each once).
Under the claimed tie-break (smaller hour wins the earlier rank) the top
three would be {1, 2, 3}; the code's `value_counts` ordering (ties in
reverse order of first occurrence) selects {2, 3, 5} instead. -/
theorem claim_C4_counterexample :
    extractHours rng0
      [{ published_at := "2024-01-01T01:00:00" },
       { published_at := "2024-01-01T05:00:00" },
       { published_at := "2024-01-01T03:00:00" },
       { published_at := "2024-01-01T02:00:00" }] = ([1, 5, 3, 2], 0) ∧
    (∃ pt, lookupStr "p" (analyzePostingTimes rng0 dataC4) = some pt ∧
      pt.peak_hours = [2, 3, 5]) ∧
    specTop3Claim [1, 5, 3, 2] = [1, 2, 3] ∧
    ([2, 3, 5] : List Nat) ≠ [1, 2, 3] := by
  exact ⟨rfl, ⟨_, rfl, rfl⟩, by decide, by decide⟩

/-- C4 amended: every posting-time entry has ascending peak hours, at most
three of them, each at most 23, and the stated time-range formula; the
selection takes the first three rows of the `value_counts` table, whose
count column is nonincreasing (so every selected hour's count is at least
every unselected hour's count) — ties are ordered by the pandas
`value_counts` layout (reverse first-occurrence), not by smaller hour. -/
theorem claim_C4_amended :
    (∀ (rng : Nat → Nat) (data : Dataset) (p : String) (pt : PTimes),
      lookupStr p (analyzePostingTimes rng data) = some pt →
      pt.peak_hours.Pairwise (· ≤ ·) ∧ pt.peak_hours.length ≤ 3 ∧
        (∀ h ∈ pt.peak_hours, h ≤ 23) ∧ rangeFormulaOK pt) ∧
    (∀ hours : List Nat, hours ≠ [] →
      (buildTimesEntry hours).peak_hours =
        sortNat (((valueCounts hours).take 3).map Prod.fst) ∧
      (valueCounts hours).Pairwise (fun a b => b.2 ≤ a.2) ∧
      (∀ a ∈ (valueCounts hours).take 3, ∀ b ∈ (valueCounts hours).drop 3,
        b.2 ≤ a.2)) := by
  constructor
  · intro rng data p pt hl
    rcases postingTimes_entry_shape data rng hl with hdef | ⟨hours, hne, ⟨rng', items, hh⟩, hbt⟩
    · rw [hdef]
      exact defaultPTimes_invariant
    · rw [hbt]
      refine buildTimes_invariant hours ?_
      intro x hx
      rw [hh] at hx
      exact extractHours_le23 items rng' x hx
  · intro hours hne
    exact ⟨buildTimes_peak_eq hne, valueCounts_sorted hours,
      pairwise_take_drop (valueCounts_sorted hours) 3⟩

/-- C4 amended witness: the invariants instantiated at the four-record
platform of the counterexample input. -/
theorem claim_C4_amended_witness :
    (∃ pt, lookupStr "p" (analyzePostingTimes rng0 dataC4) = some pt ∧
      pt.peak_hours.Pairwise (· ≤ ·) ∧ pt.peak_hours.length ≤ 3 ∧
      (∀ h ∈ pt.peak_hours, h ≤ 23) ∧ rangeFormulaOK pt) ∧
    (buildTimesEntry [1, 5, 3, 2]).peak_hours =
      sortNat (((valueCounts [1, 5, 3, 2]).take 3).map Prod.fst) := by
  constructor
  · have hl : lookupStr "p" (analyzePostingTimes rng0 dataC4) =
        some ⟨[2, 3, 5], "2:00 - 5:00", 4, 2⟩ := rfl
    exact ⟨_, hl, claim_C4_amended.1 rng0 dataC4 "p" _ hl⟩
  · exact (claim_C4_amended.2 [1, 5, 3, 2] (by decide)).1

/-- C5: the `youtube` engagement entry carries the truncated means of
views and likes (`Nat` division models Python `int()` on a nonnegative
quotient), the like-to-view ratio with the zero-view guard, the extrema of
views and the record count; Scenario A yields 200/20/0.1/300/100 and
Scenario B yields a zero engagement rate without a division fault. -/
theorem claim_C5 (data : Dataset) (items : List Item)
    (hnd : (data.map Prod.fst).Nodup) (hm : ("youtube", items) ∈ data)
    (hne : items ≠ []) :
    lookupStr "youtube" (analyzeEngagement data) =
      some (EngStat.yt (sumNat (items.map (·.views)) / items.length)
        (sumNat (items.map (·.likes)) / items.length)
        (if sumNat (items.map (·.views)) > 0 then
          (sumNat (items.map (·.likes)) : ℚ) / (sumNat (items.map (·.views)) : ℚ)
        else 0)
        (maxNat (items.map (·.views))) (minNat (items.map (·.views)))
        items.length) ∧
    lookupStr "youtube" (analyzeEngagement dataA) =
      some (EngStat.yt 200 20 (1 / 10 : ℚ) 300 100 2) ∧
    lookupStr "reddit" (analyzeEngagement dataB) =
      some (EngStat.rd 0 0 0 1) := by
  refine ⟨engagement_youtube_entry data hnd hm hne, ?_, ?_⟩
  · have h := engagement_youtube_entry dataA (by decide) (List.mem_cons_self ..)
      (by decide)
    rw [h]
    simp only [sumNat, maxNat, minNat, List.map_cons, List.map_nil,
      List.foldl_cons, List.foldl_nil, List.length_cons, List.length_nil]
    norm_num
  · decide

/-- C5 witness: the general formula instantiated at the Scenario A
dataset. -/
theorem claim_C5_witness :
    lookupStr "youtube" (analyzeEngagement dataA) =
      some (EngStat.yt ((100 + 300) / 2) ((10 + 30) / 2)
        (if (100 + 300 : Nat) > 0 then ((10 + 30 : Nat) : ℚ) / ((100 + 300 : Nat) : ℚ) else 0)
        300 100 2) := by
  have h := (claim_C5 dataA
    [{ views := 100, likes := 10 }, { views := 300, likes := 30 }]
    (by decide) (List.mem_cons_self ..) (by decide)).1
  rw [h]
  rfl

/-- C6 counterexample: a nonempty platform named `tiktok` produces no
engagement entry at all — there is no catch-all branch. -/
theorem claim_C6_counterexample :
    lookupStr "tiktok" (analyzeEngagement dataC6) = none ∧
    analyzeEngagement dataC6 = [] := by
  exact ⟨rfl, rfl⟩

/-- C6 amended: the engagement block only ever contains the three exact
identifiers `youtube`, `reddit`, `google_news`; any other platform name
produces no entry regardless of its metric shapes; the `google_news`
branch (the only non-video non-forum branch) carries `total_items` and the
mean title length. -/
theorem claim_C6_amended (data : Dataset) (p : String) :
    (∀ s, lookupStr p (analyzeEngagement data) = some s →
      p = "youtube" ∨ p = "reddit" ∨ p = "google_news") ∧
    (p ≠ "youtube" → p ≠ "reddit" → p ≠ "google_news" →
      lookupStr p (analyzeEngagement data) = none) ∧
    (∀ items, (data.map Prod.fst).Nodup → (p, items) ∈ data → items ≠ [] →
      p = "google_news" →
      lookupStr p (analyzeEngagement data) =
        some (EngStat.news items.length (avgTitleLen items))) := by
  refine ⟨?_, ?_, ?_⟩
  · intro s hl
    exact (engagement_lookup_mem data hl).1
  · intro h1 h2 h3
    cases hl : lookupStr p (analyzeEngagement data) with
    | none => rfl
    | some s =>
      rcases (engagement_lookup_mem data hl).1 with h | h | h
      · exact absurd h h1
      · exact absurd h h2
      · exact absurd h h3
  · intro items hnd hm hne hp
    subst hp
    exact engagement_news_entry data hnd hm hne

/-- C6 amended witness: `tiktok` gets no entry even with view-shaped
metrics; `google_news` gets the other-branch entry. -/
theorem claim_C6_amended_witness :
    lookupStr "tiktok" (analyzeEngagement dataC6) = none ∧
    lookupStr "google_news"
        (analyzeEngagement [("google_news", [{ title := "hello" }])]) =
      some (EngStat.news 1 (avgTitleLen [{ title := "hello" }])) := by
  constructor
  · exact (claim_C6_amended dataC6 "tiktok").2.1 (by decide) (by decide) (by decide)
  · exact (claim_C6_amended [("google_news", [{ title := "hello" }])]
      "google_news").2.2 [{ title := "hello" }] (by decide)
      (List.mem_cons_self ..) (by decide) rfl

/-- C7: viral-pattern analysis is scoped to the records stored under the
`youtube` key (the views-metric platform): with no such records every
field of the block stays empty; otherwise `high_engagement_titles` holds
the nonempty titles of up to the first five above-mean-views records
truncated to 100 characters, and `common_keywords_in_viral` holds the ten
most common lowercase words of length at least four over all viral titles
(ties first-encountered). -/
theorem claim_C7 (data : Dataset) :
    ((lookupStr "youtube" data).getD [] = [] →
      analyzeViralPatterns data =
        [("high_engagement_titles", VVal.strs []),
         ("common_keywords_in_viral", VVal.strs []),
         ("content_length_pattern", VVal.lenPat []),
         ("emotional_triggers", VVal.strs [])]) ∧
    (∀ yt, lookupStr "youtube" data = some yt → yt ≠ [] →
      lookupStr "high_engagement_titles" (analyzeViralPatterns data) =
          some (VVal.strs (specViralTitles yt)) ∧
        lookupStr "common_keywords_in_viral" (analyzeViralPatterns data) =
          some (VVal.strs (specViralKeywords yt)) ∧
        (specViralTitles yt).length ≤ 5 ∧
        (∀ t ∈ specViralTitles yt, t.length ≤ 100) ∧
        (specViralKeywords yt).length ≤ 10) := by
  constructor
  · intro h
    exact viral_empty_case data h
  · intro yt hl hne
    obtain ⟨h1, h2⟩ := viral_nonempty_case data yt hl hne
    exact ⟨h1, h2, specViralTitles_le5 yt, specViralTitles_trunc yt,
      specViralKeywords_le10 yt⟩

/-- The two-record youtube input of the viral-pattern witness. -/
def items7 : List Item :=
  [{ title := "One Weird Marketing Trick", views := 100 },
   { title := "Great Marketing Marketing Tips", views := 300 }]

/-- The dataset wrapping `items7`. -/
def data7 : Dataset := [("youtube", items7)]

theorem viralOf_items7 : viralOf items7 =
    [{ title := "Great Marketing Marketing Tips", views := 300 }] := by
  unfold viralOf items7
  simp only [List.map_cons, List.map_nil, sumNat, List.foldl_cons, List.foldl_nil,
    List.length_cons, List.length_nil, List.filter_cons, List.filter_nil,
    decide_eq_true_eq]
  norm_num

/-- C7 witness: the nonempty case instantiated at a two-record youtube
dataset whose viral record is the second one. -/
theorem claim_C7_witness :
    lookupStr "youtube" data7 = some items7 ∧
    lookupStr "high_engagement_titles" (analyzeViralPatterns data7) =
      some (VVal.strs (specViralTitles items7)) ∧
    specViralTitles items7 = ["Great Marketing Marketing Tips"] ∧
    specViralKeywords items7 = ["marketing", "great", "tips"] := by
  refine ⟨rfl, ?_, ?_, ?_⟩
  · exact ((claim_C7 data7).2 items7 rfl (by decide)).1
  · unfold specViralTitles
    rw [viralOf_items7]
    rfl
  · unfold specViralKeywords
    rw [viralOf_items7]
    rfl

/-- Characterization of the trend computation on the main path: at least
five records, at least five of them dated, no aware/naive mixing. -/
theorem trendWith_formula (eng : Item → Nat) (items : List Item)
    (h5 : ¬ items.length < 5)
    (hd5 : 5 ≤ (items.filterMap (fun it =>
      (parsePub it.published_at).map (fun dt => (dt, eng it)))).length)
    (hmix : mixedAware ((items.filterMap (fun it =>
      (parsePub it.published_at).map (fun dt => (dt, eng it)))).map Prod.fst) = false) :
    trendWith eng items =
      (let sorted := sortDated (items.filterMap (fun it =>
         (parsePub it.published_at).map (fun dt => (dt, eng it))))
       let firstHalf := (sorted.take (sorted.length / 2)).map Prod.snd
       let secondHalf := (sorted.drop (sorted.length / 2)).map Prod.snd
       if (sumNat secondHalf : ℚ) / (secondHalf.length : ℚ) >
           (sumNat firstHalf : ℚ) / (firstHalf.length : ℚ) * (6 / 5 : ℚ) then
         "Increasing"
       else if (sumNat secondHalf : ℚ) / (secondHalf.length : ℚ) <
           (sumNat firstHalf : ℚ) / (firstHalf.length : ℚ) * (4 / 5 : ℚ) then
         "Decreasing"
       else "Stable") := by
  have hslen : (sortDated (items.filterMap (fun it =>
      (parsePub it.published_at).map (fun dt => (dt, eng it))))).length =
      (items.filterMap (fun it =>
        (parsePub it.published_at).map (fun dt => (dt, eng it)))).length :=
    (List.perm_insertionSort _ _).length_eq
  have hfh : (((sortDated (items.filterMap (fun it =>
      (parsePub it.published_at).map (fun dt => (dt, eng it))))).take
        ((sortDated (items.filterMap (fun it =>
          (parsePub it.published_at).map (fun dt => (dt, eng it))))).length / 2)).map
        Prod.snd).isEmpty = false := by
    rw [List.isEmpty_eq_false, ← List.length_pos, List.length_map,
      List.length_take, hslen]
    omega
  have hsh : (((sortDated (items.filterMap (fun it =>
      (parsePub it.published_at).map (fun dt => (dt, eng it))))).drop
        ((sortDated (items.filterMap (fun it =>
          (parsePub it.published_at).map (fun dt => (dt, eng it))))).length / 2)).map
        Prod.snd).isEmpty = false := by
    rw [List.isEmpty_eq_false, ← List.length_pos, List.length_map,
      List.length_drop, hslen]
    omega
  unfold trendWith
  rw [if_neg h5]
  dsimp only
  rw [if_pos hd5, hmix, if_neg (by simp : ¬ (false = true)), hfh, hsh,
    if_neg (by simp : ¬ ((false || false) = true))]

/-- C8 amended: `"Insufficient data"` iff fewer than five records; with at
least five records but fewer than five parseable dates, `"Stable"`; on the
main path the dated records are sorted ascending, split at floor(n/2), and
the per-half means compared against the 1.2 / 0.8 thresholds — but the
engagement metric is chosen by a substring test of `"youtube"` /
`"reddit"` against the `platform` field of the first record, not by the
platform key of the engagement block. -/
theorem claim_C8_amended (items : List Item) :
    (getEngagementTrend items = "Insufficient data" ↔ items.length < 5) ∧
    (getEngagementTrend items = trendWith (trendMetric items) items) ∧
    (¬ items.length < 5 →
      (items.filterMap (fun it => parsePub it.published_at)).length < 5 →
      getEngagementTrend items = "Stable") ∧
    (¬ items.length < 5 →
      5 ≤ (items.filterMap (fun it =>
        (parsePub it.published_at).map (fun dt => (dt, trendMetric items it)))).length →
      mixedAware ((items.filterMap (fun it =>
        (parsePub it.published_at).map
          (fun dt => (dt, trendMetric items it)))).map Prod.fst) = false →
      getEngagementTrend items =
        (let sorted := sortDated (items.filterMap (fun it =>
           (parsePub it.published_at).map (fun dt => (dt, trendMetric items it))))
         let firstHalf := (sorted.take (sorted.length / 2)).map Prod.snd
         let secondHalf := (sorted.drop (sorted.length / 2)).map Prod.snd
         if (sumNat secondHalf : ℚ) / (secondHalf.length : ℚ) >
             (sumNat firstHalf : ℚ) / (firstHalf.length : ℚ) * (6 / 5 : ℚ) then
           "Increasing"
         else if (sumNat secondHalf : ℚ) / (secondHalf.length : ℚ) <
             (sumNat firstHalf : ℚ) / (firstHalf.length : ℚ) * (4 / 5 : ℚ) then
           "Decreasing"
         else "Stable")) := by
  refine ⟨trendWith_insufficient _ items, rfl, ?_, ?_⟩
  · intro h5 hd
    refine trendWith_stable_of_few _ items h5 ?_
    rw [datedOf_length]
    omega
  · intro h5 hd5 hmix
    exact trendWith_formula (trendMetric items) items h5 hd5 hmix

theorem fh_C8 : (((sortDated (itemsC8.filterMap (fun it =>
      (parsePub it.published_at).map (fun dt => (dt, trendMetric itemsC8 it))))).take
        ((sortDated (itemsC8.filterMap (fun it =>
          (parsePub it.published_at).map
            (fun dt => (dt, trendMetric itemsC8 it))))).length / 2)).map
      Prod.snd) = [0, 0, 0] := rfl

theorem sh_C8 : (((sortDated (itemsC8.filterMap (fun it =>
      (parsePub it.published_at).map (fun dt => (dt, trendMetric itemsC8 it))))).drop
        ((sortDated (itemsC8.filterMap (fun it =>
          (parsePub it.published_at).map
            (fun dt => (dt, trendMetric itemsC8 it))))).length / 2)).map
      Prod.snd) = [100, 100, 100] := rfl

theorem trend_increasing_C8 : getEngagementTrend itemsC8 = "Increasing" := by
  unfold getEngagementTrend
  rw [trendWith_formula (trendMetric itemsC8) itemsC8 (by decide) (by decide) rfl]
  dsimp only
  rw [fh_C8, sh_C8]
  norm_num [sumNat, List.foldl_cons, List.foldl_nil, List.length_cons,
    List.length_nil]

/-- The engagement figure named by the claim for a `reddit`-keyed platform
(the dispatch of the engagement block applied to the key). -/
def engRedditKey : Item → Nat := fun it =>
  if ("reddit" : String) = "youtube" then it.views
  else if ("reddit" : String) = "reddit" then it.upvotes
  else 0

theorem fh_C8R : (((sortDated (itemsC8.filterMap (fun it =>
      (parsePub it.published_at).map (fun dt => (dt, engRedditKey it))))).take
        ((sortDated (itemsC8.filterMap (fun it =>
          (parsePub it.published_at).map
            (fun dt => (dt, engRedditKey it))))).length / 2)).map
      Prod.snd) = [10, 10, 10] := rfl

theorem sh_C8R : (((sortDated (itemsC8.filterMap (fun it =>
      (parsePub it.published_at).map (fun dt => (dt, engRedditKey it))))).drop
        ((sortDated (itemsC8.filterMap (fun it =>
          (parsePub it.published_at).map
            (fun dt => (dt, engRedditKey it))))).length / 2)).map
      Prod.snd) = [10, 10, 10] := rfl

theorem trend_stable_C8R : specTrend "reddit" itemsC8 = "Stable" := by
  show trendWith engRedditKey itemsC8 = "Stable"
  rw [trendWith_formula engRedditKey itemsC8 (by decide) (by decide) rfl]
  dsimp only
  rw [fh_C8R, sh_C8R]
  norm_num [sumNat, List.foldl_cons, List.foldl_nil, List.length_cons,
    List.length_nil]

/-- C8 counterexample: six reddit-keyed records whose `platform` field
contains `"youtube"` — the code trends on views (rising: `"Increasing"`)
while the claimed key-based metric (upvotes, constant) would give
`"Stable"`; the platform-insights entry for the `reddit` key carries the
views-based result. -/
theorem claim_C8_counterexample :
    getEngagementTrend itemsC8 = "Increasing" ∧
    specTrend "reddit" itemsC8 = "Stable" ∧
    (∃ l, analyzePlatforms dataC8 = Except.ok l ∧
      ∃ pi, lookupStr "reddit" l = some pi ∧
        pi.engagement_trend = "Increasing") := by
  refine ⟨trend_increasing_C8, trend_stable_C8R, ?_⟩
  refine ⟨[("reddit", ⟨itemsC8.length, "2024-01-01 to 2024-01-06",
    getTopKeywords itemsC8, getEngagementTrend itemsC8⟩)], rfl, _,
    lookupStr_cons_self .., trend_increasing_C8⟩

/-- C8 amended witness: fewer than five records give `"Insufficient
data"`; five records with unparsable dates give `"Stable"`; and the
six-record input of the counterexample goes through the threshold
formula to `"Increasing"`. -/
theorem claim_C8_amended_witness :
    getEngagementTrend [{ title := "a" }, { title := "b" }, { title := "c" }] =
      "Insufficient data" ∧
    getEngagementTrend
      [{ published_at := "x1" }, { published_at := "x2" }, { published_at := "x3" },
       { published_at := "x4" }, { published_at := "x5" }] = "Stable" ∧
    getEngagementTrend itemsC8 = "Increasing" := by
  refine ⟨?_, ?_, ?_⟩
  · exact (claim_C8_amended _).1.mpr (by decide)
  · exact (claim_C8_amended _).2.2.1 (by decide) (by decide)
  · rw [(claim_C8_amended itemsC8).2.2.2 (by decide) (by decide) rfl]
    dsimp only
    rw [fh_C8, sh_C8]
    norm_num [sumNat, List.foldl_cons, List.foldl_nil, List.length_cons,
      List.length_nil]

/-- C9: the recommendation synthesizer equals the rule-by-rule
specification (rules 1–4 in fixed order, each appending at most one string
per signal, the four generic strings when rules 1–4 produce nothing,
truncation to the first five preserving generation order); its output
never exceeds five entries; and on the all-empty Insights value it returns
exactly the four fixed generic recommendations in order. -/
theorem claim_C9 (ins : Insights) :
    getRecommendations ins = recsSpec ins ∧
    (getRecommendations ins).length ≤ 5 ∧
    getRecommendations emptyInsights =
      ["📅 Post during business hours (9 AM - 5 PM) for maximum reach",
       "🔥 Use emotional triggers in your headlines",
       "🎯 Include clear call-to-actions in your content",
       "📊 Use data and statistics to build credibility"] := by
  refine ⟨getRecommendations_eq ins, ?_, rfl⟩
  rw [getRecommendations_eq ins]
  unfold recsSpec
  rw [List.length_take]
  exact Nat.min_le_left ..

/-- C10: on the success path the viral block holds exactly the four fixed
keys in construction order, and `content_length_pattern` and
`emotional_triggers` are always empty. -/
theorem claim_C10 (rng : Nat → Nat) (data : Dataset) (ins : Insights)
    (hok : analyzeCore rng data = Except.ok ins) :
    ins.viral_content_patterns.map Prod.fst =
      ["high_engagement_titles", "common_keywords_in_viral",
       "content_length_pattern", "emotional_triggers"] ∧
    lookupStr "content_length_pattern" ins.viral_content_patterns =
      some (VVal.lenPat []) ∧
    lookupStr "emotional_triggers" ins.viral_content_patterns =
      some (VVal.strs []) := by
  obtain ⟨-, -, hvp, -, -⟩ := analyzeCore_ok hok
  rw [hvp]
  refine ⟨rfl, ?_, ?_⟩
  · rw [show analyzeViralPatterns data =
      [("high_engagement_titles", _), ("common_keywords_in_viral", _),
       ("content_length_pattern", VVal.lenPat []),
       ("emotional_triggers", VVal.strs [])] from rfl]
    rw [lookupStr_cons_ne (by decide), lookupStr_cons_ne (by decide),
      lookupStr_cons_self]
  · rw [show analyzeViralPatterns data =
      [("high_engagement_titles", _), ("common_keywords_in_viral", _),
       ("content_length_pattern", VVal.lenPat []),
       ("emotional_triggers", VVal.strs [])] from rfl]
    rw [lookupStr_cons_ne (by decide), lookupStr_cons_ne (by decide),
      lookupStr_cons_ne (by decide), lookupStr_cons_self]

/-- C10 witness: the success path instantiated at the Scenario A input. -/
theorem claim_C10_witness :
    ∃ ins, analyzeCore rng0 dataA = Except.ok ins ∧
      ins.viral_content_patterns.map Prod.fst =
        ["high_engagement_titles", "common_keywords_in_viral",
         "content_length_pattern", "emotional_triggers"] ∧
      lookupStr "content_length_pattern" ins.viral_content_patterns =
        some (VVal.lenPat []) ∧
      lookupStr "emotional_triggers" ins.viral_content_patterns =
        some (VVal.strs []) := by
  have hok : analyzeCore rng0 dataA =
      Except.ok (handleFailure (analyzeCore rng0 dataA)) := by rfl
  exact ⟨_, hok, claim_C10 rng0 dataA _ hok⟩

end TrendAnalyzer
